import Mathlib

/-!
Verification of the interview-orchestration core of the Interview-Prep-Helper
repository.  The definitions below are a shallow embedding of
`agents/langgraph_orchestrator.py`, `agents/sme_react.py` and
`agents/panel_builder.py`:

* the `InterviewState` TypedDict becomes a structure with `Option` fields for
  the keys that may be absent in a Python dict (`current_agent`,
  `last_question`, `last_feedback`, `user_answer`);
* the text-generation dependency `llm.invoke(system, user)` becomes a function
  `LLM := String → String → Option String`, where `none` models the call
  raising an exception and `some s` models it returning `s` (a Python `None`
  return is folded into `some ""`, which is observationally identical because
  the callers all apply `(... or "").strip()`);
* the compiled LangGraph application (`self._app.invoke`) becomes a
  fuel-bounded interpreter `runFromRoute` over the fixed graph topology built
  in `init_graph`: entry node `route`, conditional dispatch to an SME node or
  the `done` node, and the SME → `route` back edge taken after feedback.
-/

/-- The `mode` strings used by the orchestrator. -/
inductive Mode where
  | route
  | ask
  | await_answer
  | feedback
  | done
deriving DecidableEq, Repr

/-- One panel entry, a `{name, system_prompt}` dict produced by the panel
builder and consumed by `init_graph`. -/
structure PanelEntry where
  name : String
  system_prompt : String
deriving DecidableEq, Repr

/-- One history entry appended by the SME feedback branch. -/
structure TurnRecord where
  agent : String
  question : String
  user_answer : String
  feedback : String
deriving DecidableEq, Repr

/-- The `InterviewState` TypedDict of `sme_react.py`.  Fields that the code
reads with a `.get` default and that are absent in the initial state are
`Option`-valued. -/
structure InterviewState where
  prompts : List PanelEntry
  resume_notes : String
  history : List TurnRecord
  turn_index : Nat
  max_turns : Nat
  current_agent : Option String
  mode : Mode
  last_question : Option String
  last_feedback : Option String
  user_answer : Option String
  force_stop : Bool
deriving DecidableEq, Repr

/-- The synchronous text-generation dependency: `none` models an exception
raised by `llm.invoke`, `some s` a returned string. -/
def LLMFun : Type := String → String → Option String

/-- The streaming text-generation dependency used by
`stream_next_question`: the list of fragments the generator yields. -/
def StreamFun : Type := String → String → List String

/-- The stopping condition tested first by the `route` node:
`state.get("force_stop") or turn_index >= max_turns`. -/
def stopCond (s : InterviewState) : Bool :=
  s.force_stop || decide (s.max_turns ≤ s.turn_index)

/-- `self.panel[idx].get("name", f"Expert {idx+1}")` (the index is always in
range whenever the panel is nonempty, because `idx = turn_index % len(panel)`). -/
def panelName (panel : List PanelEntry) (idx : Nat) : String :=
  match panel[idx]? with
  | some p => p.name
  | none => "Expert " ++ toString (idx + 1)

/-- `p.get("system_prompt", "You are an expert interviewer.")` for the panel
entry at index `i`. -/
def systemPromptAt (panel : List PanelEntry) (i : Nat) : String :=
  match panel[i]? with
  | some p => p.system_prompt
  | none => "You are an expert interviewer."

/-- The round-robin selection body of the `route` node:
`idx = turn_index % len(panel)`, then store the chosen name and enter ask. -/
def routeSelect (panel : List PanelEntry) (s : InterviewState) : InterviewState :=
  let idx := s.turn_index % panel.length
  { s with current_agent := some (panelName panel idx), mode := Mode.ask }

/-- The `route` node of `init_graph`:  stopping conditions first, then the
round-robin agent selection, which only fires when `mode in (None, "route")`. -/
def route (panel : List PanelEntry) (s : InterviewState) : InterviewState :=
  if stopCond s then { s with mode := Mode.done }
  else if s.mode = Mode.route then routeSelect panel s
  else s

/-- The `done_node` of `init_graph`. -/
def done_node (s : InterviewState) : InterviewState :=
  { s with mode := Mode.done }

/-- Targets of the conditional edge leaving the `route` node. -/
inductive RouteTarget where
  | toDone
  | toEnd
  | toSme (i : Nat)
deriving DecidableEq, Repr

/-- Python truthiness of `state.get("current_agent")`: falsy when the key is
absent or the stored name is the empty string. -/
def curFalsy (s : InterviewState) : Bool :=
  match s.current_agent with
  | none => true
  | some a => a == ""

/-- `from_route_cond`: dispatch after the `route` node. -/
def from_route_cond (panel : List PanelEntry) (s : InterviewState) : RouteTarget :=
  if s.mode = Mode.done then RouteTarget.toDone
  else if curFalsy s then RouteTarget.toEnd
  else
    match panel.findIdx? (fun p => p.name == s.current_agent.getD "") with
    | some i => RouteTarget.toSme i
    | none => RouteTarget.toSme 0

/-- The fixed ask directive used both by the SME node and by the streaming
path of the orchestrator. -/
def askInstr : String :=
  "Craft the next interview question. Ask a single, clear, challenging question tailored to the role and context."

/-- The feedback directive of the SME node. -/
def fbInstr : String :=
  "Provide brief feedback in 2-4 bullets: strengths and improvements."

/-- One line of the shared history rendering:
`f"Q by {agent}: {question}\nUser: {user_answer}"`. -/
def historyLine (h : TurnRecord) : String :=
  "Q by " ++ h.agent ++ ": " ++ h.question ++ "\nUser: " ++ h.user_answer

/-- The context pieces shared by the SME ask branch and
`LangGraphOrchestrator._compose_context`: resume notes when truthy, then the
last five history records. -/
def contextItems (s : InterviewState) : List String :=
  (if s.resume_notes ≠ "" then ["Resume Notes:\n" ++ s.resume_notes] else []) ++
    (let recent := s.history.drop (s.history.length - 5)
     if recent.isEmpty then []
     else ["History (most recent last):\n" ++
       String.intercalate "\n" (recent.map historyLine)])

/-- The user prompt composed by the SME ask branch. -/
def smeAskUser (s : InterviewState) : String :=
  String.intercalate "\n\n" (contextItems s) ++ "\n\n" ++ askInstr

/-- The user prompt composed by the SME feedback branch. -/
def smeFeedbackUser (s : InterviewState) : String :=
  "Question: " ++ s.last_question.getD "" ++ "\nAnswer: " ++ s.user_answer.getD "" ++
    "\n\n" ++ fbInstr

/-- The successful ask branch of the SME node: store the trimmed question and
halt at `await_answer`. -/
def askApply (s : InterviewState) (q : String) : InterviewState :=
  { s with last_question := some q.trim, mode := Mode.await_answer }

/-- The successful feedback branch of the SME node: store the trimmed
feedback, append the turn record, and hand control back to `route`. -/
def feedbackApply (s : InterviewState) (fb : String) : InterviewState :=
  let f := fb.trim
  { s with
    last_feedback := some f,
    history := s.history ++
      [{ agent := s.current_agent.getD "Expert",
         question := s.last_question.getD "",
         user_answer := s.user_answer.getD "",
         feedback := f }],
    mode := Mode.route }

/-- The SME node produced by `build_sme_node(system_prompt, llm)`.  `none`
models the node raising because the generation call raised. -/
def sme_node (sp : String) (llm : LLMFun) (s : InterviewState) : Option InterviewState :=
  match s.mode with
  | Mode.ask =>
    match llm sp (smeAskUser s) with
    | none => none
    | some q => some (askApply s q)
  | Mode.feedback =>
    match llm sp (smeFeedbackUser s) with
    | none => none
    | some fb => some (feedbackApply s fb)
  | _ => some s

/-- Errors escaping `self._app.invoke`: a generation exception, or (never for
sufficient fuel) interpreter fuel exhaustion. -/
inductive InvokeErr where
  | genFailure
  | fuelOut
deriving DecidableEq, Repr

/-- Interpreter for one `self._app.invoke(state)` call on the graph built by
`init_graph`: run `route`, dispatch via `from_route_cond`, run the selected
SME node, and follow the SME → `route` back edge while the SME set
`mode = "route"` (the feedback branch).

An exception raised by a node propagates out of `invoke`; LangGraph passes
the caller's `history` list by reference, and the feedback branch appends to
it in place (`hist.append`), so when a later generation call raises inside
the same invocation, the caller's state retains that append.  The error
therefore carries the caller-visible history at the raise point; every
other node write happens on LangGraph's channel copies and is lost. -/
def runFromRoute (panel : List PanelEntry) (llm : LLMFun) :
    Nat → InterviewState → Except (InvokeErr × List TurnRecord) InterviewState
  | 0, s0 => Except.error (InvokeErr.fuelOut, s0.history)
  | n + 1, s0 =>
    match from_route_cond panel (route panel s0) with
    | RouteTarget.toDone => Except.ok (done_node (route panel s0))
    | RouteTarget.toEnd => Except.ok (route panel s0)
    | RouteTarget.toSme i =>
      match sme_node (systemPromptAt panel i) llm (route panel s0) with
      | none => Except.error (InvokeErr.genFailure, (route panel s0).history)
      | some s2 =>
        if s2.mode = Mode.route then runFromRoute panel llm n s2
        else Except.ok s2

/-- `self._app.invoke(state)` with fuel amply covering the two route passes
the graph can make in one invocation. -/
def appInvoke (panel : List PanelEntry) (llm : LLMFun) (s : InterviewState) :
    Except (InvokeErr × List TurnRecord) InterviewState :=
  runFromRoute panel llm 4 s

/-- The initial state written at the end of `init_graph`. -/
def init_state (panel : List PanelEntry) (resume_notes : String) (max_turns : Nat) :
    InterviewState :=
  { prompts := panel
    resume_notes := resume_notes
    history := []
    turn_index := 0
    max_turns := max_turns
    current_agent := none
    mode := Mode.route
    last_question := none
    last_feedback := none
    user_answer := none
    force_stop := false }

/-- `LangGraphOrchestrator.next_question`.  The returned pair is the Python
return value (or the propagated exception) together with the orchestrator's
`self.state` after the call, accounting for the in-place
`self.state["mode"] = "route"` performed before the first invoke. -/
def next_question (panel : List PanelEntry) (llm : LLMFun) (s : InterviewState) :
    Except InvokeErr (String × String × Bool) × InterviewState :=
  let s0 := { s with mode := Mode.route }
  match appInvoke panel llm s0 with
  | Except.error e => (Except.error e.1, { s0 with history := e.2 })
  | Except.ok s1 =>
    match appInvoke panel llm s1 with
    | Except.error e => (Except.error e.1, { s1 with history := e.2 })
    | Except.ok s2 =>
      (Except.ok (s2.last_question.getD "", s2.current_agent.getD "Expert",
        s2.mode == Mode.done), s2)

/-- `LangGraphOrchestrator.process_user_answer`: store the answer, set
`mode = "feedback"`, invoke, increment `turn_index` in place, invoke again. -/
def process_user_answer (panel : List PanelEntry) (llm : LLMFun) (ans : String)
    (s : InterviewState) : Except InvokeErr Bool × InterviewState :=
  let s0 := { s with user_answer := some ans, mode := Mode.feedback }
  match appInvoke panel llm s0 with
  | Except.error e => (Except.error e.1, { s0 with history := e.2 })
  | Except.ok s1 =>
    let s2 := { s1 with turn_index := s1.turn_index + 1 }
    match appInvoke panel llm s2 with
    | Except.error e => (Except.error e.1, { s2 with history := e.2 })
    | Except.ok s3 => (Except.ok (s3.mode == Mode.done), s3)

/-- `LangGraphOrchestrator.stop`. -/
def stop (s : InterviewState) : InterviewState :=
  { s with force_stop := true }

/-- `LangGraphOrchestrator.summary`: sentinel on empty history, otherwise one
generation call over the rendered transcript. -/
def summary (llm : LLMFun) (s : InterviewState) : Except InvokeErr String :=
  if s.history.isEmpty then Except.ok "No interview conducted."
  else
    let items := s.history.map (fun h =>
      "Q: " ++ h.question ++ "\nA: " ++ h.user_answer ++ "\nFeedback: " ++ h.feedback)
    let context := String.intercalate "\n\n" items
    let prompt :=
      "Using the interview transcript and feedback, write a concise summary for the candidate: What went well and what to improve. Include actionable tips."
    match llm "You are an interview coach who writes concise, helpful summaries."
        (context ++ "\n\n" ++ prompt) with
    | none => Except.error InvokeErr.genFailure
    | some t => Except.ok t.trim

/-- The Socket.IO events emitted by `stream_next_question`. -/
inductive Event where
  | qstart (agent : String)
  | qchunk (text : String)
  | qend (agent : String)
deriving DecidableEq, Repr

/-- `LangGraphOrchestrator._compose_context`. -/
def compose_context (s : InterviewState) : String :=
  String.intercalate "\n\n" (contextItems s)

/-- `LangGraphOrchestrator.stream_next_question`: route (one graph
invocation), short-circuit when `mode == "done"`, otherwise emit
`question_start`, one `question_chunk` per fragment, store the trimmed
concatenation, set `mode = "await_answer"`, and emit `question_end`.  The
third component is the ordered list of emitted events. -/
def stream_next_question (panel : List PanelEntry) (llm : LLMFun) (sllm : StreamFun)
    (s : InterviewState) :
    Except InvokeErr (String × String × Bool) × InterviewState × List Event :=
  let s0 := { s with mode := Mode.route }
  match appInvoke panel llm s0 with
  | Except.error e => (Except.error e.1, { s0 with history := e.2 }, [])
  | Except.ok s1 =>
    if s1.mode = Mode.done then (Except.ok ("", "", true), s1, [])
    else
      let agent := s1.current_agent.getD "Expert"
      let idx := (panel.findIdx? (fun p => p.name == agent)).getD 0
      let sp := systemPromptAt panel idx
      let frags := sllm sp (compose_context s1 ++ "\n\n" ++ askInstr)
      let question := (String.join frags).trim
      let s2 := { s1 with last_question := some question, mode := Mode.await_answer }
      (Except.ok (question, agent, s2.mode == Mode.done), s2,
        Event.qstart agent :: (frags.map Event.qchunk ++ [Event.qend agent]))

/-- States of one session reachable from `init_graph`'s initial state by the
operations the orchestrator exposes, under arbitrary generation behaviour
(including failing calls, whose mutated pre-invoke state persists as
`self.state`). -/
inductive Reachable (panel : List PanelEntry) : InterviewState → Prop where
  | init (rn : String) (mt : Nat) : Reachable panel (init_state panel rn mt)
  | next (llm : LLMFun) (s : InterviewState) :
      Reachable panel s → Reachable panel (next_question panel llm s).2
  | answer (llm : LLMFun) (ans : String) (s : InterviewState) :
      Reachable panel s → Reachable panel (process_user_answer panel llm ans s).2
  | stream (llm : LLMFun) (sllm : StreamFun) (s : InterviewState) :
      Reachable panel s → Reachable panel (stream_next_question panel llm sllm s).2.1
  | stopped (s : InterviewState) :
      Reachable panel s → Reachable panel (stop s)

/-!
## Panel resolution (`agents/panel_builder.py`)

`propose_panel_from_jd` asks the generation service for JSON, parses it with
`json.loads`, and validates the shape inside a `try`/`except` whose handler
substitutes the hard-coded fallback panel.  We embed the function over the
outcome of the parse: `none` models `json.loads` raising on malformed
content, `some j` a parsed JSON document `j`.
-/

/-- A parsed JSON document. -/
inductive Json where
  | null
  | bool (b : Bool)
  | num (n : Int)
  | str (s : String)
  | arr (xs : List Json)
  | obj (fields : List (String × Json))

/-- Python truthiness of a JSON value, used by the `or` defaults in the
normalisation loop. -/
def Json.truthy : Json → Bool
  | Json.null => false
  | Json.bool b => b
  | Json.num n => n != 0
  | Json.str s => s != ""
  | Json.arr xs => !xs.isEmpty
  | Json.obj fs => !fs.isEmpty

/-- Whether a JSON value is an object (a Python dict). -/
def Json.isObj : Json → Bool
  | Json.obj _ => true
  | _ => false

/-- `data.get(key)` where `data` is an arbitrary parsed value: `none` models
the `AttributeError` raised when `data` is not a dict, `some none` a dict
without the key (Python `None`), `some (some v)` a present value. -/
def jsonDictGet (j : Json) (k : String) : Option (Option Json) :=
  match j with
  | Json.obj fs => some (fs.lookup k)
  | _ => none

/-- A normalised panel entry: the loop keeps whatever JSON values survive the
`or` defaults, so the fields are JSON values, not necessarily strings. -/
structure RawPanelEntry where
  name : Json
  system_prompt : Json

/-- `p.get(key) or default` for one entry of the proposed panel. -/
def entryField (p : Json) (k : String) (d : String) : Json :=
  match jsonDictGet p k with
  | some (some v) => if v.truthy then v else Json.str d
  | _ => Json.str d

/-- One iteration of the normalisation loop; `none` models the
`AttributeError` raised by `p.get` when the entry is not a dict. -/
def normEntry (i : Nat) (p : Json) : Option RawPanelEntry :=
  if p.isObj then
    some { name := entryField p "name" ("Expert " ++ toString (i + 1)),
           system_prompt :=
             entryField p "system_prompt" "You are a helpful expert interviewer." }
  else none

/-- The normalisation loop over the proposed entries; `none` when any
iteration raises (which aborts the whole `try` block). -/
def normalizePanel : Nat → List Json → Option (List RawPanelEntry)
  | _, [] => some []
  | i, p :: rest =>
    match normEntry i p with
    | none => none
    | some e =>
      match normalizePanel (i + 1) rest with
      | none => none
      | some es => some (e :: es)

/-- The hard-coded fallback panel of `propose_panel_from_jd`. -/
def fallbackPanel : List RawPanelEntry :=
  [{ name := Json.str "Domain Expert",
     system_prompt := Json.str "You are a domain expert interviewer." },
   { name := Json.str "Systems Expert",
     system_prompt := Json.str "You are a systems design interviewer." },
   { name := Json.str "Behavioral Expert",
     system_prompt := Json.str "You are a behavioral interviewer." }]

/-- `propose_panel_from_jd`, embedded over the outcome of
`json.loads(content)`. -/
def propose_panel_from_jd (parsed : Option Json) : List RawPanelEntry :=
  match parsed with
  | none => fallbackPanel
  | some data =>
    match jsonDictGet data "panel" with
    | none => fallbackPanel
    | some pv =>
      match pv with
      | some (Json.arr xs) =>
        if xs.length = 3 then
          match normalizePanel 0 xs with
          | some out => out
          | none => fallbackPanel
        else fallbackPanel
      | _ => fallbackPanel

/-- The shape check the spec describes: the parse produced a dict whose
`panel` field is a list of exactly 3 objects. -/
def panelShapeOk (parsed : Option Json) : Bool :=
  match parsed with
  | some (Json.obj fs) =>
    match fs.lookup "panel" with
    | some (Json.arr xs) => xs.length == 3 && xs.all Json.isObj
    | _ => false
  | _ => false

/-!
## Concrete fixtures used by witnesses and counterexamples
-/

/-- A concrete three-entry panel. -/
def p3 : List PanelEntry :=
  [{ name := "Alpha", system_prompt := "sysA" },
   { name := "Beta", system_prompt := "sysB" },
   { name := "Gamma", system_prompt := "sysC" }]

/-- A generation service that always succeeds with fixed non-empty text. -/
def llmConst : LLMFun := fun _ _ => some "generated text"

/-- A generation service that always raises. -/
def llmNone : LLMFun := fun _ _ => none

/-- A generation service that always returns the empty string. -/
def llmEmpty : LLMFun := fun _ _ => some ""

/-- A streaming generation service yielding three fixed fragments. -/
def sllmConst : StreamFun := fun _ _ => ["Hello ", "wor", "ld  "]

/-- The SME index picked by `from_route_cond` for a truthy current agent:
first panel entry with a matching name, defaulting to `sme_0`. -/
def smeIdx (panel : List PanelEntry) (s : InterviewState) : Nat :=
  (panel.findIdx? (fun p => p.name == s.current_agent.getD "")).getD 0

/-- Fields of the interview state that no graph node ever writes. -/
def SameFrame (s s' : InterviewState) : Prop :=
  s'.turn_index = s.turn_index ∧ s'.max_turns = s.max_turns ∧
  s'.force_stop = s.force_stop ∧ s'.user_answer = s.user_answer ∧
  s'.resume_notes = s.resume_notes ∧ s'.prompts = s.prompts

/-- States on which one further graph invocation performs no generation call:
every state the interpreter can return. -/
def Quiet (s : InterviewState) : Prop :=
  s.mode ≠ Mode.route ∧
    (s.mode = Mode.done ∨ s.mode = Mode.await_answer ∨ curFalsy s = true)

/-- The joint invariant maintained by the exposed operations: a `done` mode
certifies the stopping condition, and the turn counter stays within the
budget except in terminal states. -/
def SessionInv (s : InterviewState) : Prop :=
  (s.mode = Mode.done → stopCond s = true) ∧
    (s.turn_index ≤ s.max_turns ∨ s.mode = Mode.done)

/-- Session start of the end-to-end scenario: panel `p3`, two turns. -/
def sess0 : InterviewState := init_state p3 "" 2

/-- After the first `next_question` of the scenario. -/
def sess1 : InterviewState := (next_question p3 llmConst sess0).2

/-- After the first `process_user_answer` of the scenario. -/
def sess2 : InterviewState := (process_user_answer p3 llmConst "answer A" sess1).2

/-- After the second `next_question` of the scenario. -/
def sess3 : InterviewState := (next_question p3 llmConst sess2).2

/-- After the second `process_user_answer` of the scenario. -/
def sess4 : InterviewState := (process_user_answer p3 llmConst "answer B" sess3).2

/-- A state that is awaiting an answer yet not stopping: `route` leaves it
untouched. -/
def sAwaitC1 : InterviewState := { sess0 with mode := Mode.await_answer }

/-- A routable state with a selected agent and a stored question, but not
awaiting an answer. -/
def sRouteC2 : InterviewState :=
  { sess0 with current_agent := some "Alpha", last_question := some "old q" }

/-- A terminal session: `maxTurns = 0`, so the very first routing finishes it. -/
def doneState : InterviewState := (next_question p3 llmConst (init_state p3 "" 0)).2

/-- The state after submitting an answer to an already-finished session:
`turn_index` is incremented past `max_turns`. -/
def overState : InterviewState :=
  (process_user_answer p3 llmConst "x" (init_state p3 "" 0)).2

/-- An awaiting state with a stored question, used to exercise the partial
failure of `process_user_answer`. -/
def sCraft : InterviewState :=
  { sess0 with current_agent := some "Alpha", mode := Mode.await_answer,
               last_question := some "Q" }

/-- A generation service that answers the feedback prompt of `sCraft` (for
the answer "a") and raises on every other call — in particular on the hidden
follow-up ask made in the same graph invocation. -/
def llmAskFail : LLMFun := fun _ u =>
  if u = "Question: Q\nAnswer: a\n\n" ++ fbInstr then some "good feedback"
  else none

/-- Decidable equality for graph-invocation outcomes, used to evaluate the
model on concrete inputs. -/
instance {e a : Type} [DecidableEq e] [DecidableEq a] : DecidableEq (Except e a) :=
  fun x y =>
    match x, y with
    | Except.ok u, Except.ok v =>
      if h : u = v then Decidable.isTrue (congrArg Except.ok h)
      else Decidable.isFalse (fun hh => h (Except.ok.inj hh))
    | Except.error u, Except.error v =>
      if h : u = v then Decidable.isTrue (congrArg Except.error h)
      else Decidable.isFalse (fun hh => h (Except.error.inj hh))
    | Except.ok _, Except.error _ => Decidable.isFalse (fun hh => Except.noConfusion hh)
    | Except.error _, Except.ok _ => Decidable.isFalse (fun hh => Except.noConfusion hh)

/-!
## Structural lemmas about the graph interpreter
-/

theorem route_mode_ne_route (panel : List PanelEntry) (s : InterviewState) :
    (route panel s).mode ≠ Mode.route := by
  unfold route routeSelect
  split
  · simp
  · split <;> simp_all

theorem route_eq_self (panel : List PanelEntry) (s : InterviewState)
    (hs : stopCond s = false) (hm : s.mode ≠ Mode.route) : route panel s = s := by
  simp [route, hs, hm]

theorem setMode_eq_self (s : InterviewState) (m : Mode) (h : s.mode = m) :
    { s with mode := m } = s := by
  cases s
  simp_all

theorem sameFrame_refl (s : InterviewState) : SameFrame s s := by
  simp [SameFrame]

theorem sameFrame_trans {a b c : InterviewState} (h1 : SameFrame a b)
    (h2 : SameFrame b c) : SameFrame a c := by
  obtain ⟨x1, x2, x3, x4, x5, x6⟩ := h1
  obtain ⟨y1, y2, y3, y4, y5, y6⟩ := h2
  exact ⟨y1.trans x1, y2.trans x2, y3.trans x3, y4.trans x4, y5.trans x5, y6.trans x6⟩

theorem route_frame (panel : List PanelEntry) (s : InterviewState) :
    SameFrame s (route panel s) := by
  unfold route routeSelect
  split
  · simp [SameFrame]
  · split <;> simp [SameFrame]

theorem done_node_frame (s : InterviewState) : SameFrame s (done_node s) := by
  simp [SameFrame, done_node]

theorem sme_node_frame (sp : String) (llm : LLMFun) (s s' : InterviewState)
    (h : sme_node sp llm s = some s') : SameFrame s s' := by
  unfold sme_node at h
  split at h
  · cases hq : llm sp (smeAskUser s) <;> rw [hq] at h
    · exact absurd h (by simp)
    · simp only [Option.some.injEq] at h
      subst h
      simp [SameFrame, askApply]
  · cases hq : llm sp (smeFeedbackUser s) <;> rw [hq] at h
    · exact absurd h (by simp)
    · simp only [Option.some.injEq] at h
      subst h
      simp [SameFrame, feedbackApply]
  · simp only [Option.some.injEq] at h
    subst h
    exact sameFrame_refl s

theorem stopCond_of_frame {s s' : InterviewState} (h : SameFrame s s') :
    stopCond s' = stopCond s := by
  obtain ⟨h1, h2, h3, -, -, -⟩ := h
  simp [stopCond, h1, h2, h3]

theorem runFromRoute_frame (panel : List PanelEntry) (llm : LLMFun) :
    ∀ (n : Nat) (s s' : InterviewState),
      runFromRoute panel llm n s = Except.ok s' → SameFrame s s' := by
  intro n
  induction n with
  | zero => intro s s' h; exact absurd h (by simp [runFromRoute])
  | succ n ih =>
    intro s s' h
    unfold runFromRoute at h
    split at h
    · simp only [Except.ok.injEq] at h
      subst h
      exact sameFrame_trans (route_frame panel s) (done_node_frame _)
    · simp only [Except.ok.injEq] at h
      subst h
      exact route_frame panel s
    · rename_i i hcond
      split at h
      · exact absurd h (by simp)
      · rename_i s2 hsme
        split at h
        · exact sameFrame_trans
            (sameFrame_trans (route_frame panel s)
              (sme_node_frame _ llm _ _ hsme)) (ih s2 s' h)
        · simp only [Except.ok.injEq] at h
          subst h
          exact sameFrame_trans (route_frame panel s) (sme_node_frame _ llm _ _ hsme)

theorem from_route_cond_toEnd {panel : List PanelEntry} {s : InterviewState}
    (h : from_route_cond panel s = RouteTarget.toEnd) :
    s.mode ≠ Mode.done ∧ curFalsy s = true := by
  unfold from_route_cond at h
  split at h
  · exact absurd h (by simp)
  · split at h
    · simp_all
    · split at h <;> exact absurd h (by simp)

theorem from_route_cond_toSme {panel : List PanelEntry} {s : InterviewState} {i : Nat}
    (h : from_route_cond panel s = RouteTarget.toSme i) :
    s.mode ≠ Mode.done ∧ curFalsy s = false ∧ i = smeIdx panel s := by
  unfold from_route_cond at h
  split at h
  · exact absurd h (by simp)
  · split at h
    · exact absurd h (by simp)
    · rename_i hnd hcf
      refine ⟨hnd, by simpa using hcf, ?_⟩
      unfold smeIdx
      split at h
      · rename_i j heq
        simp only [RouteTarget.toSme.injEq] at h
        rw [heq, ← h]
        rfl
      · rename_i heq
        simp only [RouteTarget.toSme.injEq] at h
        rw [heq, ← h]
        rfl

theorem from_route_cond_done {panel : List PanelEntry} {s : InterviewState}
    (h : s.mode = Mode.done) : from_route_cond panel s = RouteTarget.toDone := by
  simp [from_route_cond, h]

theorem from_route_cond_not_done {panel : List PanelEntry} {s : InterviewState}
    (h : s.mode ≠ Mode.done) (hc : curFalsy s = true) :
    from_route_cond panel s = RouteTarget.toEnd := by
  simp [from_route_cond, h, hc]

theorem rfr_stop (panel : List PanelEntry) (llm : LLMFun) (n : Nat)
    (s : InterviewState) (h : stopCond s = true) :
    runFromRoute panel llm (n + 1) s = Except.ok { s with mode := Mode.done } := by
  unfold runFromRoute
  have hr : route panel s = { s with mode := Mode.done } := by simp [route, h]
  rw [hr, from_route_cond_done (by simp)]
  simp [done_node]

theorem rfr_quiet (panel : List PanelEntry) (llm : LLMFun) :
    ∀ (n : Nat) (s s' : InterviewState),
      runFromRoute panel llm n s = Except.ok s' → Quiet s' := by
  intro n
  induction n with
  | zero => intro s s' h; exact absurd h (by simp [runFromRoute])
  | succ n ih =>
    intro s s' h
    unfold runFromRoute at h
    split at h
    · simp only [Except.ok.injEq] at h
      subst h
      exact ⟨by simp [done_node], Or.inl (by simp [done_node])⟩
    · rename_i hcond
      simp only [Except.ok.injEq] at h
      subst h
      obtain ⟨-, hcf⟩ := from_route_cond_toEnd hcond
      exact ⟨route_mode_ne_route panel s, Or.inr (Or.inr hcf)⟩
    · rename_i i hcond
      split at h
      · exact absurd h (by simp)
      · rename_i s2 hsme
        split at h
        · exact ih s2 s' h
        · rename_i hm2
          simp only [Except.ok.injEq] at h
          subst h
          obtain ⟨hnd, hcf, -⟩ := from_route_cond_toSme hcond
          unfold sme_node at hsme
          split at hsme
          · rename_i hask
            split at hsme
            · exact absurd hsme (by simp)
            · simp only [Option.some.injEq] at hsme
              subst hsme
              exact ⟨by simp [askApply], Or.inr (Or.inl (by simp [askApply]))⟩
          · rename_i hfb
            split at hsme
            · exact absurd hsme (by simp)
            · simp only [Option.some.injEq] at hsme
              subst hsme
              exact absurd (by simp [feedbackApply]) hm2
          · simp only [Option.some.injEq] at hsme
            subst hsme
            have hnr := route_mode_ne_route panel s
            have hawait : (route panel s).mode = Mode.await_answer := by
              rename_i hne1 hne2
              cases hmode : (route panel s).mode <;> simp_all
            exact ⟨hnr, Or.inr (Or.inl hawait)⟩

theorem rfr_of_quiet (panel : List PanelEntry) (llm : LLMFun) (n : Nat)
    (s : InterviewState) (h : Quiet s) :
    runFromRoute panel llm (n + 1) s =
      Except.ok (if stopCond s then { s with mode := Mode.done } else s) := by
  obtain ⟨hnr, hq⟩ := h
  by_cases hstop : stopCond s = true
  · rw [rfr_stop panel llm n s hstop, hstop]
    simp
  · have hs : stopCond s = false := by simpa using hstop
    rw [hs]
    simp only [if_false, Bool.false_eq_true]
    have hr : route panel s = s := route_eq_self panel s hs hnr
    unfold runFromRoute
    rw [hr]
    rcases hq with hd | ha | hcf
    · rw [from_route_cond_done hd]
      simp [done_node, setMode_eq_self s Mode.done hd]
    · cases hcf : curFalsy s
      · have hcond : from_route_cond panel s = RouteTarget.toSme (smeIdx panel s) := by
          unfold from_route_cond
          rw [if_neg (by simp [ha]), hcf]
          simp only [Bool.false_eq_true, if_false]
          unfold smeIdx
          split
          · rename_i j heq
            rw [heq]
            rfl
          · rename_i heq
            rw [heq]
            rfl
        rw [hcond]
        have hsme : sme_node (systemPromptAt panel (smeIdx panel s)) llm s = some s := by
          unfold sme_node
          rw [ha]
        dsimp only
        rw [hsme]
        dsimp only
        rw [if_neg (by simp [ha])]
      · rw [from_route_cond_not_done (by simp [ha]) hcf]
    · by_cases hd : s.mode = Mode.done
      · rw [from_route_cond_done hd]
        simp [done_node, setMode_eq_self s Mode.done hd]
      · rw [from_route_cond_not_done hd hcf]

theorem route_eq_select (panel : List PanelEntry) (s : InterviewState)
    (hs : stopCond s = false) (hm : s.mode = Mode.route) :
    route panel s = routeSelect panel s := by
  simp [route, hs, hm]

theorem routeSelect_frame (panel : List PanelEntry) (s : InterviewState) :
    SameFrame s (routeSelect panel s) := by
  simp [SameFrame, routeSelect]

theorem askApply_frame (s : InterviewState) (q : String) :
    SameFrame s (askApply s q) := by
  simp [SameFrame, askApply]

theorem feedbackApply_frame (s : InterviewState) (fb : String) :
    SameFrame s (feedbackApply s fb) := by
  simp [SameFrame, feedbackApply]

theorem from_route_cond_toSme_of (panel : List PanelEntry) (s : InterviewState)
    (hnd : s.mode ≠ Mode.done) (hcf : curFalsy s = false) :
    from_route_cond panel s = RouteTarget.toSme (smeIdx panel s) := by
  unfold from_route_cond
  rw [if_neg hnd, hcf]
  simp only [Bool.false_eq_true, if_false]
  unfold smeIdx
  split
  · rename_i j heq
    rw [heq]
    rfl
  · rename_i heq
    rw [heq]
    rfl

theorem rfr_from_route_falsy (panel : List PanelEntry) (llm : LLMFun) (n : Nat)
    (s : InterviewState) (hm : s.mode = Mode.route) (hs : stopCond s = false)
    (hcf : curFalsy (routeSelect panel s) = true) :
    runFromRoute panel llm (n + 1) s = Except.ok (routeSelect panel s) := by
  unfold runFromRoute
  rw [route_eq_select panel s hs hm,
    from_route_cond_not_done (by simp [routeSelect]) hcf]

theorem rfr_from_route_err (panel : List PanelEntry) (llm : LLMFun) (n : Nat)
    (s : InterviewState) (hm : s.mode = Mode.route) (hs : stopCond s = false)
    (hcf : curFalsy (routeSelect panel s) = false)
    (hq : llm (systemPromptAt panel (smeIdx panel (routeSelect panel s)))
      (smeAskUser (routeSelect panel s)) = none) :
    runFromRoute panel llm (n + 1) s =
      Except.error (InvokeErr.genFailure, s.history) := by
  unfold runFromRoute
  rw [route_eq_select panel s hs hm,
    from_route_cond_toSme_of panel _ (by simp [routeSelect]) hcf]
  dsimp only
  unfold sme_node
  rw [show (routeSelect panel s).mode = Mode.ask from rfl]
  rw [hq]
  rfl

theorem rfr_from_route_ok (panel : List PanelEntry) (llm : LLMFun) (n : Nat)
    (s : InterviewState) (q : String) (hm : s.mode = Mode.route)
    (hs : stopCond s = false)
    (hcf : curFalsy (routeSelect panel s) = false)
    (hq : llm (systemPromptAt panel (smeIdx panel (routeSelect panel s)))
      (smeAskUser (routeSelect panel s)) = some q) :
    runFromRoute panel llm (n + 1) s = Except.ok (askApply (routeSelect panel s) q) := by
  unfold runFromRoute
  rw [route_eq_select panel s hs hm,
    from_route_cond_toSme_of panel _ (by simp [routeSelect]) hcf]
  dsimp only
  unfold sme_node
  rw [show (routeSelect panel s).mode = Mode.ask from rfl]
  rw [hq]
  dsimp only
  rw [if_neg (by simp [askApply])]

theorem rfr_from_feedback_err (panel : List PanelEntry) (llm : LLMFun) (n : Nat)
    (s : InterviewState) (hm : s.mode = Mode.feedback) (hs : stopCond s = false)
    (hcf : curFalsy s = false)
    (hq : llm (systemPromptAt panel (smeIdx panel s)) (smeFeedbackUser s) = none) :
    runFromRoute panel llm (n + 1) s =
      Except.error (InvokeErr.genFailure, s.history) := by
  unfold runFromRoute
  rw [route_eq_self panel s hs (by simp [hm]),
    from_route_cond_toSme_of panel s (by simp [hm]) hcf]
  dsimp only
  unfold sme_node
  rw [hm, hq]

theorem rfr_from_feedback_ok (panel : List PanelEntry) (llm : LLMFun) (n : Nat)
    (s : InterviewState) (fb : String) (hm : s.mode = Mode.feedback)
    (hs : stopCond s = false) (hcf : curFalsy s = false)
    (hq : llm (systemPromptAt panel (smeIdx panel s)) (smeFeedbackUser s) = some fb) :
    runFromRoute panel llm (n + 2) s =
      runFromRoute panel llm (n + 1) (feedbackApply s fb) := by
  unfold runFromRoute
  rw [route_eq_self panel s hs (by simp [hm]),
    from_route_cond_toSme_of panel s (by simp [hm]) hcf]
  dsimp only
  unfold sme_node
  rw [hm, hq]
  dsimp only
  rw [if_pos (by simp [feedbackApply])]
  rfl

theorem appInvoke_stop (panel : List PanelEntry) (llm : LLMFun) (s : InterviewState)
    (hs : stopCond s = true) :
    appInvoke panel llm s = Except.ok { s with mode := Mode.done } := by
  unfold appInvoke
  exact rfr_stop panel llm 3 s hs

theorem appInvoke_quiet {panel : List PanelEntry} {llm : LLMFun}
    {s s' : InterviewState} (h : appInvoke panel llm s = Except.ok s') : Quiet s' :=
  rfr_quiet panel llm 4 s s' h

theorem appInvoke_frame {panel : List PanelEntry} {llm : LLMFun}
    {s s' : InterviewState} (h : appInvoke panel llm s = Except.ok s') :
    SameFrame s s' :=
  runFromRoute_frame panel llm 4 s s' h

theorem appInvoke_of_quiet (panel : List PanelEntry) (llm : LLMFun)
    (s : InterviewState) (h : Quiet s) :
    appInvoke panel llm s =
      Except.ok (if stopCond s then { s with mode := Mode.done } else s) := by
  unfold appInvoke
  exact rfr_of_quiet panel llm 3 s h

theorem quiet_bump (s : InterviewState) (k : Nat) (h : Quiet s) :
    Quiet { s with turn_index := k } := by
  obtain ⟨h1, h2⟩ := h
  exact ⟨by simpa using h1, by simpa [curFalsy] using h2⟩

theorem stopCond_mode (s : InterviewState) (m : Mode) :
    stopCond { s with mode := m } = stopCond s := by
  simp [stopCond]

theorem stopCond_route_answer (s : InterviewState) (ans : String) :
    stopCond { s with user_answer := some ans, mode := Mode.feedback } = stopCond s := by
  simp [stopCond]

theorem next_question_stop (panel : List PanelEntry) (llm : LLMFun)
    (s : InterviewState) (hs : stopCond s = true) :
    next_question panel llm s =
      (Except.ok (s.last_question.getD "", s.current_agent.getD "Expert", true),
       { s with mode := Mode.done }) := by
  simp only [next_question]
  rw [appInvoke_stop panel llm _ (by simpa [stopCond] using hs)]
  dsimp only
  rw [appInvoke_stop panel llm _ (by simpa [stopCond] using hs)]
  dsimp only
  simp

theorem process_stop (panel : List PanelEntry) (llm : LLMFun) (ans : String)
    (s : InterviewState) (hs : stopCond s = true) :
    process_user_answer panel llm ans s =
      (Except.ok true,
       { s with
          user_answer := some ans
          mode := Mode.done
          turn_index := s.turn_index + 1 }) := by
  simp only [process_user_answer]
  rw [appInvoke_stop panel llm _ (by simpa [stopCond] using hs)]
  dsimp only
  rw [appInvoke_stop panel llm _
    (by
      simp only [stopCond, Bool.or_eq_true, decide_eq_true_eq] at hs ⊢
      rcases hs with h | h
      · exact Or.inl h
      · exact Or.inr (by omega))]
  dsimp only
  simp

theorem setHistory_eq_self (s : InterviewState) :
    ({ s with history := s.history } : InterviewState) = s := by
  cases s
  rfl

theorem rfr_route_err_inv (panel : List PanelEntry) (llm : LLMFun) (n : Nat)
    (s : InterviewState) (p : InvokeErr × List TurnRecord)
    (hm : s.mode = Mode.route)
    (herr : runFromRoute panel llm (n + 1) s = Except.error p) :
    p = (InvokeErr.genFailure, s.history) := by
  by_cases hstop : stopCond s = true
  · rw [rfr_stop panel llm n s hstop] at herr
    exact absurd herr (by simp)
  · have hs : stopCond s = false := by simpa using hstop
    cases hcf : curFalsy (routeSelect panel s)
    · cases hq : llm (systemPromptAt panel (smeIdx panel (routeSelect panel s)))
        (smeAskUser (routeSelect panel s))
      · rw [rfr_from_route_err panel llm n s hm hs hcf hq] at herr
        simp only [Except.error.injEq] at herr
        exact herr.symm
      · rw [rfr_from_route_ok panel llm n s _ hm hs hcf hq] at herr
        exact absurd herr (by simp)
    · rw [rfr_from_route_falsy panel llm n s hm hs hcf] at herr
      exact absurd herr (by simp)

theorem rfr_feedback_err_inv (panel : List PanelEntry) (llm : LLMFun) (n : Nat)
    (s : InterviewState) (p : InvokeErr × List TurnRecord)
    (hm : s.mode = Mode.feedback)
    (herr : runFromRoute panel llm (n + 2) s = Except.error p) :
    p.1 = InvokeErr.genFailure ∧
      (p.2 = s.history ∨ ∃ fb : String, p.2 = s.history ++
        [{ agent := s.current_agent.getD "Expert",
           question := s.last_question.getD "",
           user_answer := s.user_answer.getD "",
           feedback := fb.trim }]) := by
  by_cases hstop : stopCond s = true
  · rw [rfr_stop panel llm (n + 1) s hstop] at herr
    exact absurd herr (by simp)
  · have hs : stopCond s = false := by simpa using hstop
    cases hcf : curFalsy s
    · cases hq : llm (systemPromptAt panel (smeIdx panel s)) (smeFeedbackUser s)
      · rw [rfr_from_feedback_err panel llm (n + 1) s hm hs hcf hq] at herr
        simp only [Except.error.injEq] at herr
        rw [← herr]
        exact ⟨rfl, Or.inl rfl⟩
      · rename_i fb
        rw [rfr_from_feedback_ok panel llm n s fb hm hs hcf hq] at herr
        have h2 := rfr_route_err_inv panel llm n (feedbackApply s fb) p
          (by simp [feedbackApply]) herr
        rw [h2]
        refine ⟨rfl, Or.inr ⟨fb, ?_⟩⟩
        simp [feedbackApply]
    · rw [rfr_of_quiet panel llm (n + 1) s ⟨by simp [hm], Or.inr (Or.inr hcf)⟩] at herr
      exact absurd herr (by simp)

theorem next_question_err (panel : List PanelEntry) (llm : LLMFun)
    (s : InterviewState) (e : InvokeErr)
    (h : (next_question panel llm s).1 = Except.error e) :
    (next_question panel llm s).2 = { s with mode := Mode.route } := by
  simp only [next_question] at h ⊢
  cases h1 : appInvoke panel llm { s with mode := Mode.route } with
  | error p =>
    dsimp only
    rw [rfr_route_err_inv panel llm 3 { s with mode := Mode.route } p rfl h1]
  | ok s1 =>
    rw [h1] at h
    dsimp only at h
    rw [appInvoke_of_quiet panel llm s1 (appInvoke_quiet h1)] at h
    dsimp only at h
    exact absurd h (by simp)

theorem process_err (panel : List PanelEntry) (llm : LLMFun) (ans : String)
    (s : InterviewState) (e : InvokeErr)
    (h : (process_user_answer panel llm ans s).1 = Except.error e) :
    ∃ hi : List TurnRecord, (process_user_answer panel llm ans s).2 =
        { s with user_answer := some ans, mode := Mode.feedback, history := hi } ∧
      (hi = s.history ∨ ∃ fb : String, hi = s.history ++
        [{ agent := s.current_agent.getD "Expert",
           question := s.last_question.getD "",
           user_answer := ans,
           feedback := fb.trim }]) := by
  simp only [process_user_answer] at h ⊢
  cases h1 : appInvoke panel llm { s with user_answer := some ans, mode := Mode.feedback } with
  | error p =>
    have hp := rfr_feedback_err_inv panel llm 2
      { s with user_answer := some ans, mode := Mode.feedback } p rfl h1
    exact ⟨p.2, rfl, hp.2⟩
  | ok s1 =>
    rw [h1] at h
    dsimp only at h
    rw [appInvoke_of_quiet panel llm _
      (quiet_bump s1 (s1.turn_index + 1) (appInvoke_quiet h1))] at h
    dsimp only at h
    exact absurd h (by simp)

theorem process_ok_frame (panel : List PanelEntry) (llm : LLMFun) (ans : String)
    (s : InterviewState) (b : Bool)
    (h : (process_user_answer panel llm ans s).1 = Except.ok b) :
    (process_user_answer panel llm ans s).2.turn_index = s.turn_index + 1 ∧
      (process_user_answer panel llm ans s).2.user_answer = some ans := by
  simp only [process_user_answer] at h ⊢
  cases h1 : appInvoke panel llm { s with user_answer := some ans, mode := Mode.feedback } with
  | error e1 =>
    rw [h1] at h
    dsimp only at h
    exact absurd h (by simp)
  | ok s1 =>
    rw [h1] at h
    dsimp only at h ⊢
    obtain ⟨ht1, -, -, hu1, -, -⟩ := appInvoke_frame h1
    cases h2 : appInvoke panel llm { s1 with turn_index := s1.turn_index + 1 } with
    | error e2 =>
      rw [h2] at h
      dsimp only at h
      exact absurd h (by simp)
    | ok s3 =>
      rw [h2] at h
      dsimp only at h ⊢
      obtain ⟨ht3, -, -, hu3, -, -⟩ := appInvoke_frame h2
      constructor
      · rw [ht3]
        simp [ht1]
      · rw [hu3]
        simpa using hu1

theorem appInvoke_route_falsy (panel : List PanelEntry) (llm : LLMFun)
    (s : InterviewState) (hm : s.mode = Mode.route) (hs : stopCond s = false)
    (hcf : curFalsy (routeSelect panel s) = true) :
    appInvoke panel llm s = Except.ok (routeSelect panel s) := by
  unfold appInvoke
  exact rfr_from_route_falsy panel llm 3 s hm hs hcf

theorem appInvoke_route_err (panel : List PanelEntry) (llm : LLMFun)
    (s : InterviewState) (hm : s.mode = Mode.route) (hs : stopCond s = false)
    (hcf : curFalsy (routeSelect panel s) = false)
    (hq : llm (systemPromptAt panel (smeIdx panel (routeSelect panel s)))
      (smeAskUser (routeSelect panel s)) = none) :
    appInvoke panel llm s = Except.error (InvokeErr.genFailure, s.history) := by
  unfold appInvoke
  exact rfr_from_route_err panel llm 3 s hm hs hcf hq

theorem appInvoke_route_ok (panel : List PanelEntry) (llm : LLMFun)
    (s : InterviewState) (q : String) (hm : s.mode = Mode.route)
    (hs : stopCond s = false)
    (hcf : curFalsy (routeSelect panel s) = false)
    (hq : llm (systemPromptAt panel (smeIdx panel (routeSelect panel s)))
      (smeAskUser (routeSelect panel s)) = some q) :
    appInvoke panel llm s = Except.ok (askApply (routeSelect panel s) q) := by
  unfold appInvoke
  exact rfr_from_route_ok panel llm 3 s q hm hs hcf hq

theorem appInvoke_feedback_err (panel : List PanelEntry) (llm : LLMFun)
    (s : InterviewState) (hm : s.mode = Mode.feedback) (hs : stopCond s = false)
    (hcf : curFalsy s = false)
    (hq : llm (systemPromptAt panel (smeIdx panel s)) (smeFeedbackUser s) = none) :
    appInvoke panel llm s = Except.error (InvokeErr.genFailure, s.history) := by
  unfold appInvoke
  exact rfr_from_feedback_err panel llm 3 s hm hs hcf hq

theorem appInvoke_feedback_ok (panel : List PanelEntry) (llm : LLMFun)
    (s : InterviewState) (fb : String) (hm : s.mode = Mode.feedback)
    (hs : stopCond s = false) (hcf : curFalsy s = false)
    (hq : llm (systemPromptAt panel (smeIdx panel s)) (smeFeedbackUser s) = some fb) :
    appInvoke panel llm s = runFromRoute panel llm 3 (feedbackApply s fb) := by
  unfold appInvoke
  exact rfr_from_feedback_ok panel llm 2 s fb hm hs hcf hq

theorem rfr_route_not_done (panel : List PanelEntry) (llm : LLMFun) (n : Nat)
    (s s' : InterviewState) (hm : s.mode = Mode.route) (hs : stopCond s = false)
    (h : runFromRoute panel llm (n + 1) s = Except.ok s') :
    s'.mode ≠ Mode.done := by
  cases hcf : curFalsy (routeSelect panel s)
  · cases hq : llm (systemPromptAt panel (smeIdx panel (routeSelect panel s)))
      (smeAskUser (routeSelect panel s))
    · rw [rfr_from_route_err panel llm n s hm hs hcf hq] at h
      exact absurd h (by simp)
    · rw [rfr_from_route_ok panel llm n s _ hm hs hcf hq] at h
      simp only [Except.ok.injEq] at h
      subst h
      simp [askApply]
  · rw [rfr_from_route_falsy panel llm n s hm hs hcf] at h
    simp only [Except.ok.injEq] at h
    subst h
    simp [routeSelect]

theorem rfr_feedback_not_done (panel : List PanelEntry) (llm : LLMFun) (n : Nat)
    (s s' : InterviewState) (hm : s.mode = Mode.feedback) (hs : stopCond s = false)
    (h : runFromRoute panel llm (n + 2) s = Except.ok s') :
    s'.mode ≠ Mode.done := by
  cases hcf : curFalsy s
  · cases hq : llm (systemPromptAt panel (smeIdx panel s)) (smeFeedbackUser s)
    · rw [rfr_from_feedback_err panel llm (n + 1) s hm hs hcf hq] at h
      exact absurd h (by simp)
    · rename_i fb
      rw [rfr_from_feedback_ok panel llm n s fb hm hs hcf hq] at h
      exact rfr_route_not_done panel llm n _ s' (by simp [feedbackApply])
        (by rw [stopCond_of_frame (feedbackApply_frame s fb)]; exact hs) h
  · rw [rfr_of_quiet panel llm (n + 1) s ⟨by simp [hm], Or.inr (Or.inr hcf)⟩, hs] at h
    simp only [Bool.false_eq_true, if_false, Except.ok.injEq] at h
    subst h
    simp [hm]

theorem stream_stop (panel : List PanelEntry) (llm : LLMFun) (sllm : StreamFun)
    (s : InterviewState) (hs : stopCond s = true) :
    stream_next_question panel llm sllm s =
      (Except.ok ("", "", true), { s with mode := Mode.done }, []) := by
  simp only [stream_next_question]
  rw [appInvoke_stop panel llm _ (by simpa [stopCond] using hs)]
  dsimp only
  simp

theorem frame_turn {s s' : InterviewState} (h : SameFrame s s') :
    s'.turn_index = s.turn_index := h.1

theorem frame_max {s s' : InterviewState} (h : SameFrame s s') :
    s'.max_turns = s.max_turns := h.2.1

theorem not_stop_lt {s : InterviewState} (hs : stopCond s = false) :
    s.turn_index < s.max_turns := by
  simp only [stopCond, Bool.or_eq_false_iff, decide_eq_false_iff_not, not_le] at hs
  exact hs.2

theorem reachable_inv (panel : List PanelEntry) :
    ∀ s, Reachable panel s → SessionInv s := by
  intro s h
  induction h with
  | init rn mt => exact ⟨by simp [init_state], Or.inl (by simp [init_state])⟩
  | stopped s hr ih =>
    obtain ⟨h1, h2⟩ := ih
    refine ⟨fun _ => by simp [stop, stopCond], ?_⟩
    rcases h2 with h2 | h2
    · exact Or.inl (by simpa [stop] using h2)
    · exact Or.inr (by simpa [stop] using h2)
  | next llm s hr ih =>
    by_cases hs : stopCond s = true
    · rw [next_question_stop panel llm s hs]
      exact ⟨fun _ => by simpa [stopCond] using hs, Or.inr (by simp)⟩
    · have hs' : stopCond s = false := by simpa using hs
      have hlt := not_stop_lt hs'
      simp only [next_question]
      cases h1 : appInvoke panel llm { s with mode := Mode.route } with
      | error e =>
        exact ⟨by simp, Or.inl (by simpa using hlt.le)⟩
      | ok s1 =>
        dsimp only
        have hfr := appInvoke_frame h1
        have hsc : stopCond s1 = false := by
          rw [stopCond_of_frame hfr]
          simpa [stopCond] using hs'
        have hnd : s1.mode ≠ Mode.done :=
          rfr_route_not_done panel llm 3 _ s1 (by simp)
            (by simpa [stopCond] using hs') h1
        rw [appInvoke_of_quiet panel llm s1 (appInvoke_quiet h1), hsc]
        rw [if_neg (by simp)]
        dsimp only
        refine ⟨fun hd => absurd hd hnd, Or.inl ?_⟩
        have ht := frame_turn hfr
        have hm := frame_max hfr
        dsimp only at ht hm
        rw [ht, hm]
        exact hlt.le
  | answer llm ans s hr ih =>
    by_cases hs : stopCond s = true
    · rw [process_stop panel llm ans s hs]
      refine ⟨fun _ => ?_, Or.inr (by simp)⟩
      simp only [stopCond, Bool.or_eq_true, decide_eq_true_eq] at hs ⊢
      rcases hs with h | h
      · exact Or.inl h
      · exact Or.inr (by omega)
    · have hs' : stopCond s = false := by simpa using hs
      have hlt := not_stop_lt hs'
      simp only [process_user_answer]
      cases h1 : appInvoke panel llm
          { s with user_answer := some ans, mode := Mode.feedback } with
      | error e =>
        exact ⟨by simp, Or.inl (by simpa using hlt.le)⟩
      | ok s1 =>
        dsimp only
        have hfr := appInvoke_frame h1
        have hnd : s1.mode ≠ Mode.done :=
          rfr_feedback_not_done panel llm 2 _ s1 (by simp)
            (by simpa [stopCond] using hs') h1
        have ht := frame_turn hfr
        have hm := frame_max hfr
        rw [appInvoke_of_quiet panel llm _
          (quiet_bump s1 (s1.turn_index + 1) (appInvoke_quiet h1))]
        cases hsc2 : stopCond { s1 with turn_index := s1.turn_index + 1 } with
        | true =>
          rw [if_pos rfl]
          dsimp only
          refine ⟨fun _ => by simpa [stopCond] using hsc2, Or.inr (by simp)⟩
        | false =>
          rw [if_neg (by simp)]
          dsimp only
          refine ⟨fun hd => absurd (by simpa using hd) hnd, Or.inl ?_⟩
          exact (not_stop_lt hsc2).le
  | stream llm sllm s hr ih =>
    by_cases hs : stopCond s = true
    · rw [stream_stop panel llm sllm s hs]
      exact ⟨fun _ => by simpa [stopCond] using hs, Or.inr (by simp)⟩
    · have hs' : stopCond s = false := by simpa using hs
      have hlt := not_stop_lt hs'
      simp only [stream_next_question]
      cases h1 : appInvoke panel llm { s with mode := Mode.route } with
      | error e =>
        exact ⟨by simp, Or.inl (by simpa using hlt.le)⟩
      | ok s1 =>
        dsimp only
        have hfr := appInvoke_frame h1
        have hnd : s1.mode ≠ Mode.done :=
          rfr_route_not_done panel llm 3 _ s1 (by simp)
            (by simpa [stopCond] using hs') h1
        rw [if_neg hnd]
        dsimp only
        refine ⟨by simp, Or.inl ?_⟩
        have ht := frame_turn hfr
        have hm := frame_max hfr
        simp only [ht, hm]
        simpa using hlt.le

theorem next_question_go_ok (panel : List PanelEntry) (llm : LLMFun)
    (s : InterviewState) (q : String) (hs : stopCond s = false)
    (hcf : curFalsy (routeSelect panel { s with mode := Mode.route }) = false)
    (hq : llm (systemPromptAt panel
        (smeIdx panel (routeSelect panel { s with mode := Mode.route })))
      (smeAskUser (routeSelect panel { s with mode := Mode.route })) = some q) :
    next_question panel llm s =
      (Except.ok (q.trim, panelName panel (s.turn_index % panel.length), false),
       askApply (routeSelect panel { s with mode := Mode.route }) q) := by
  simp only [next_question]
  rw [appInvoke_route_ok panel llm _ q (by simp) (by simpa [stopCond] using hs) hcf hq]
  dsimp only
  rw [appInvoke_of_quiet panel llm _
    ⟨by simp [askApply], Or.inr (Or.inl (by simp [askApply]))⟩]
  have hsX : stopCond (askApply (routeSelect panel { s with mode := Mode.route }) q) = false := hs
  rw [hsX]
  rw [if_neg (by simp)]
  dsimp only
  simp [askApply, routeSelect]

theorem normEntry_none_iff (i : Nat) (p : Json) :
    normEntry i p = none ↔ p.isObj = false := by
  unfold normEntry
  cases p <;> simp [Json.isObj]

theorem normalizePanel_length :
    ∀ (i : Nat) (xs : List Json) (out : List RawPanelEntry),
      normalizePanel i xs = some out → out.length = xs.length := by
  intro i xs
  induction xs generalizing i with
  | nil =>
    intro out h
    simp only [normalizePanel, Option.some.injEq] at h
    subst h
    rfl
  | cons p rest ih =>
    intro out h
    simp only [normalizePanel] at h
    cases hne : normEntry i p <;> rw [hne] at h
    · exact absurd h (by simp)
    · cases hrest : normalizePanel (i + 1) rest <;> rw [hrest] at h
      · exact absurd h (by simp)
      · simp only [Option.some.injEq] at h
        subst h
        simp [ih _ _ hrest]

theorem normalizePanel_none_of_not_all :
    ∀ (i : Nat) (xs : List Json), xs.all Json.isObj = false →
      normalizePanel i xs = none := by
  intro i xs
  induction xs generalizing i with
  | nil => intro h; exact absurd h (by simp)
  | cons p rest ih =>
    intro h
    simp only [List.all_cons, Bool.and_eq_false_iff] at h
    rcases h with h | h
    · simp only [normalizePanel]
      rw [(normEntry_none_iff i p).mpr h]
    · simp only [normalizePanel]
      cases hne : normEntry i p
      · rfl
      · rw [ih (i + 1) h]


theorem rfr3_route_ok (panel : List PanelEntry) (llm : LLMFun)
    (s : InterviewState) (q : String) (hm : s.mode = Mode.route)
    (hs : stopCond s = false)
    (hcf : curFalsy (routeSelect panel s) = false)
    (hq : llm (systemPromptAt panel (smeIdx panel (routeSelect panel s)))
      (smeAskUser (routeSelect panel s)) = some q) :
    runFromRoute panel llm 3 s = Except.ok (askApply (routeSelect panel s) q) :=
  rfr_from_route_ok panel llm 2 s q hm hs hcf hq

/-!
## Claim theorems
-/

/-- C9: for every state with empty history, `summary` returns the fixed
"no interview conducted" sentinel, and the result is independent of the
text-generation service, so no generation call is observable. -/
theorem c9_summary_sentinel (llm : LLMFun) (s : InterviewState)
    (h : s.history = []) :
    summary llm s = Except.ok "No interview conducted." ∧
      ∀ llm2 : LLMFun, summary llm s = summary llm2 s := by
  refine ⟨by simp [summary, h], fun llm2 => by simp [summary, h]⟩

/-- C9 witness: the initial session state has empty history and `summary`
returns the sentinel on it, even under an always-failing generation service. -/
theorem c9_witness :
    sess0.history = [] ∧
      summary llmNone sess0 = Except.ok "No interview conducted." ∧
      summary llmNone sess0 = summary llmConst sess0 :=
  ⟨rfl, (c9_summary_sentinel llmNone sess0 rfl).1,
    (c9_summary_sentinel llmNone sess0 rfl).2 llmConst⟩

/-- C8: for every parse outcome of the generation result,
`propose_panel_from_jd` returns exactly 3 entries, and whenever the result
does not parse as a dict whose `panel` field is a list of exactly 3 objects,
the hard-coded fallback panel is returned. -/
theorem c8_panel_shape (parsed : Option Json) :
    (propose_panel_from_jd parsed).length = 3 ∧
      (panelShapeOk parsed = false → propose_panel_from_jd parsed = fallbackPanel) := by
  cases parsed with
  | none => exact ⟨rfl, fun _ => rfl⟩
  | some data =>
    cases data with
    | null => exact ⟨rfl, fun _ => rfl⟩
    | bool b => exact ⟨rfl, fun _ => rfl⟩
    | num n => exact ⟨rfl, fun _ => rfl⟩
    | str t => exact ⟨rfl, fun _ => rfl⟩
    | arr xs => exact ⟨rfl, fun _ => rfl⟩
    | obj fs =>
      simp only [propose_panel_from_jd, jsonDictGet, panelShapeOk]
      cases hlk : fs.lookup "panel" with
      | none => exact ⟨rfl, fun _ => rfl⟩
      | some v =>
        cases v with
        | null => exact ⟨rfl, fun _ => rfl⟩
        | bool b => exact ⟨rfl, fun _ => rfl⟩
        | num n => exact ⟨rfl, fun _ => rfl⟩
        | str t => exact ⟨rfl, fun _ => rfl⟩
        | obj gs => exact ⟨rfl, fun _ => rfl⟩
        | arr xs =>
          dsimp only
          by_cases hlen : xs.length = 3
          · rw [if_pos hlen]
            cases hn : normalizePanel 0 xs with
            | none => exact ⟨rfl, fun _ => rfl⟩
            | some out =>
              refine ⟨by rw [normalizePanel_length 0 xs out hn, hlen], fun hshape => ?_⟩
              rw [hlen] at hshape
              simp only [beq_self_eq_true, Bool.true_and] at hshape
              rw [normalizePanel_none_of_not_all 0 xs hshape] at hn
              exact absurd hn (by simp)
          · rw [if_neg hlen]
            exact ⟨rfl, fun _ => rfl⟩

/-- C8 witness: a malformed generation result (a bare string) is rejected by
the shape check and yields the 3-entry fallback panel. -/
theorem c8_witness :
    panelShapeOk (some (Json.str "oops")) = false ∧
      (propose_panel_from_jd (some (Json.str "oops"))).length = 3 ∧
      propose_panel_from_jd (some (Json.str "oops")) = fallbackPanel :=
  ⟨rfl, (c8_panel_shape (some (Json.str "oops"))).1,
    (c8_panel_shape (some (Json.str "oops"))).2 rfl⟩

/-- C1 counterexample: a state that is neither force-stopped nor out of
turns, but whose mode is `await_answer`, is returned unchanged by `route`:
no agent is selected and mode does not become ask, refuting the claim that
the non-stopping branch always selects `panel[turnIndex mod 3]`. -/
theorem c1_counterexample :
    sAwaitC1.force_stop = false ∧ sAwaitC1.turn_index < sAwaitC1.max_turns ∧
      route p3 sAwaitC1 = sAwaitC1 ∧ (route p3 sAwaitC1).mode ≠ Mode.ask := by
  refine ⟨rfl, by decide, rfl, by decide⟩

/-- C1 (amended): `route` is a pure function of
(turnIndex, forceStop, panel, mode): when forceStop or turnIndex ≥ maxTurns
it sets mode done; otherwise, when mode is `route`, it selects
`panel[turnIndex mod 3].name` and sets mode ask; in any other mode it leaves
the state unchanged. -/
theorem c1_round_robin (panel : List PanelEntry) (s : InterviewState)
    (h3 : panel.length = 3) :
    (stopCond s = true → route panel s = { s with mode := Mode.done }) ∧
    (stopCond s = false → s.mode = Mode.route →
      route panel s =
        { s with current_agent := some (panelName panel (s.turn_index % 3)),
                 mode := Mode.ask }) ∧
    (stopCond s = false → s.mode ≠ Mode.route → route panel s = s) := by
  refine ⟨fun hs => by simp [route, hs], fun hs hm => ?_,
    fun hs hm => route_eq_self panel s hs hm⟩
  rw [route_eq_select panel s hs hm]
  simp [routeSelect, h3]

/-- C1 witness: on the initial state of a 3-entry panel session, `route`
selects entry 0 and enters ask. -/
theorem c1_witness :
    stopCond sess0 = false ∧ sess0.mode = Mode.route ∧ p3.length = 3 ∧
      route p3 sess0 =
        { sess0 with current_agent := some (panelName p3 (sess0.turn_index % 3)),
                     mode := Mode.ask } :=
  ⟨rfl, rfl, rfl, (c1_round_robin p3 sess0 rfl).2.1 rfl rfl⟩

/-- C5 counterexample: the state reached by initialising a session with
`maxTurns = 0` and submitting one answer is reachable yet has
`turnIndex = 1 > 0 = maxTurns`: `process_user_answer` increments the counter
unconditionally, even when routing is already terminal. -/
theorem c5_counterexample :
    Reachable p3 overState ∧ overState.max_turns < overState.turn_index :=
  ⟨Reachable.answer llmConst "x" _ (Reachable.init "" 0), by decide⟩

/-- C5 (amended): in every reachable state, either turnIndex ≤ maxTurns or
the session is already done (turnIndex can pass maxTurns only through
`process_user_answer` calls on a finished session, which leave mode done);
moreover routing at turnIndex ≥ maxTurns yields mode done, and a
non-stopping state always satisfies turnIndex < maxTurns. -/
theorem c5_turn_bound (panel : List PanelEntry) (s : InterviewState)
    (_h3 : panel.length = 3) (hr : Reachable panel s) :
    (s.turn_index ≤ s.max_turns ∨ s.mode = Mode.done) ∧
      (stopCond s = false → s.turn_index < s.max_turns) ∧
      (s.max_turns ≤ s.turn_index → (route panel s).mode = Mode.done) := by
  refine ⟨(reachable_inv panel s hr).2, fun hs => not_stop_lt hs, fun hge => ?_⟩
  have hst : stopCond s = true := by
    simp only [stopCond, Bool.or_eq_true, decide_eq_true_eq]
    exact Or.inr hge
  simp [route, hst]

/-- C5 witness: after the first question of a fresh two-turn session the
bound holds with turnIndex strictly below maxTurns. -/
theorem c5_witness :
    p3.length = 3 ∧
      (sess1.turn_index ≤ sess1.max_turns ∨ sess1.mode = Mode.done) ∧
      (stopCond sess1 = false → sess1.turn_index < sess1.max_turns) :=
  ⟨rfl, (c5_turn_bound p3 sess1 rfl (Reachable.next llmConst _ (Reachable.init "" 2))).1,
    (c5_turn_bound p3 sess1 rfl (Reachable.next llmConst _ (Reachable.init "" 2))).2.1⟩

/-- C4: done is terminal on reachable states: when a reachable state has
mode done, none of the exposed operations changes mode or currentAgent, and
none appends to history. -/
theorem c4_done_terminal (panel : List PanelEntry) (llm : LLMFun)
    (sllm : StreamFun) (ans : String) (s : InterviewState)
    (_h3 : panel.length = 3) (hr : Reachable panel s) (hd : s.mode = Mode.done) :
    ((next_question panel llm s).2.mode = Mode.done ∧
      (next_question panel llm s).2.current_agent = s.current_agent ∧
      (next_question panel llm s).2.history = s.history) ∧
    ((process_user_answer panel llm ans s).2.mode = Mode.done ∧
      (process_user_answer panel llm ans s).2.current_agent = s.current_agent ∧
      (process_user_answer panel llm ans s).2.history = s.history) ∧
    ((stream_next_question panel llm sllm s).2.1.mode = Mode.done ∧
      (stream_next_question panel llm sllm s).2.1.current_agent = s.current_agent ∧
      (stream_next_question panel llm sllm s).2.1.history = s.history) ∧
    ((stop s).mode = Mode.done ∧ (stop s).current_agent = s.current_agent ∧
      (stop s).history = s.history) := by
  have hstop : stopCond s = true := (reachable_inv panel s hr).1 hd
  refine ⟨?_, ?_, ?_, ?_⟩
  · rw [next_question_stop panel llm s hstop]
    exact ⟨rfl, rfl, rfl⟩
  · rw [process_stop panel llm ans s hstop]
    exact ⟨rfl, rfl, rfl⟩
  · rw [stream_stop panel llm sllm s hstop]
    exact ⟨rfl, rfl, rfl⟩
  · exact ⟨by simpa [stop] using hd, rfl, rfl⟩

/-- C4 witness: a finished zero-turn session is reachable and done, and all
four operations leave mode, currentAgent and history untouched on it. -/
theorem c4_witness :
    p3.length = 3 ∧ doneState.mode = Mode.done ∧
      (next_question p3 llmConst doneState).2.mode = Mode.done ∧
      (process_user_answer p3 llmConst "x" doneState).2.history = doneState.history ∧
      (stream_next_question p3 llmConst sllmConst doneState).2.1.mode = Mode.done :=
  ⟨rfl, by decide,
    (c4_done_terminal p3 llmConst sllmConst "x" doneState rfl
      (Reachable.next llmConst _ (Reachable.init "" 0)) (by decide)).1.1,
    (c4_done_terminal p3 llmConst sllmConst "x" doneState rfl
      (Reachable.next llmConst _ (Reachable.init "" 0)) (by decide)).2.1.2.2,
    (c4_done_terminal p3 llmConst sllmConst "x" doneState rfl
      (Reachable.next llmConst _ (Reachable.init "" 0)) (by decide)).2.2.1.1⟩

/-- C2 counterexample: submitting an answer while mode is `route` (not
`await_answer`) raises no invalid-state error: it succeeds, mutates the
state, and attaches the supplied answer to a freshly appended turn record
paired with the previously stored question. -/
theorem c2_counterexample :
    sRouteC2.mode ≠ Mode.await_answer ∧
      (process_user_answer p3 llmConst "my answer" sRouteC2).1 = Except.ok false ∧
      (process_user_answer p3 llmConst "my answer" sRouteC2).2.mode ≠ sRouteC2.mode ∧
      (process_user_answer p3 llmConst "my answer" sRouteC2).2.history =
        [{ agent := "Alpha", question := "old q", user_answer := "my answer",
           feedback := "generated text".trim }] := by
  refine ⟨by decide, by decide, by decide, rfl⟩

/-- C2 (amended): `process_user_answer` performs no mode validation: its
behaviour is independent of the pre-state's mode (the mode is overwritten
with feedback before routing), it always stores the supplied answer in
`user_answer`, and on success it always increments turnIndex by one — it
never fails with an invalid-state error and never leaves the state
unchanged. -/
theorem c2_no_validation (panel : List PanelEntry) (llm : LLMFun)
    (ans : String) (s : InterviewState) :
    (∀ m : Mode, process_user_answer panel llm ans { s with mode := m } =
        process_user_answer panel llm ans s) ∧
    (process_user_answer panel llm ans s).2.user_answer = some ans ∧
    (∀ b, (process_user_answer panel llm ans s).1 = Except.ok b →
      (process_user_answer panel llm ans s).2.turn_index = s.turn_index + 1) := by
  refine ⟨fun m => rfl, ?_, fun b hb => (process_ok_frame panel llm ans s b hb).1⟩
  cases hres : (process_user_answer panel llm ans s).1 with
  | error e =>
    obtain ⟨hi, hpost, -⟩ := process_err panel llm ans s e hres
    rw [hpost]
  | ok b => exact (process_ok_frame panel llm ans s b hres).2

/-- C2 witness: a concrete successful submission stores the answer and
increments the turn counter. -/
theorem c2_witness :
    (process_user_answer p3 llmConst "a" sess1).1 = Except.ok false ∧
      (process_user_answer p3 llmConst "a" sess1).2.turn_index = sess1.turn_index + 1 ∧
      (process_user_answer p3 llmConst "a" sess1).2.user_answer = some "a" :=
  ⟨by decide, (c2_no_validation p3 llmConst "a" sess1).2.2 false (by decide),
    (c2_no_validation p3 llmConst "a" sess1).2.1⟩

/-- C3 counterexample.  Two violations of the claimed atomicity.  (a) An
empty generation result does not propagate any failure: the composite
next-question operation succeeds, stores the empty string as the question,
and moves the state to `await_answer` — the state is not left in its
pre-call form.  (b) `process_user_answer` is not atomic on failure: when the
feedback generation succeeds but the hidden follow-up ask raises inside the
same graph invocation, the in-place `hist.append` of the feedback node
survives in the caller's shared history list, so the error state has grown
from 0 to 1 records while turnIndex stayed 0; retrying the submission with a
working service then records the turn a second time — history length 2 at
turnIndex 1 — a double count. -/
theorem c3_counterexample :
    (next_question p3 llmEmpty sess0).1 = Except.ok ("".trim, "Alpha", false) ∧
      sess0.mode = Mode.route ∧
      (next_question p3 llmEmpty sess0).2.mode = Mode.await_answer ∧
      (next_question p3 llmEmpty sess0).2.last_question = some "".trim ∧
      sCraft.history.length = 0 ∧
      (process_user_answer p3 llmAskFail "a" sCraft).1 =
        Except.error InvokeErr.genFailure ∧
      (process_user_answer p3 llmAskFail "a" sCraft).2.history.length = 1 ∧
      (process_user_answer p3 llmAskFail "a" sCraft).2.turn_index = 0 ∧
      (process_user_answer p3 llmConst "a"
        ((process_user_answer p3 llmAskFail "a" sCraft).2)).2.history.length = 2 ∧
      (process_user_answer p3 llmConst "a"
        ((process_user_answer p3 llmAskFail "a" sCraft).2)).2.turn_index = 1 := by
  refine ⟨rfl, rfl, by decide, rfl, by decide, by decide, by decide, by decide,
    by decide, by decide⟩

/-- C3 (amended): when a generation call raises, the error propagates, no
partial question is stored and turnIndex is not incremented, but the two
composite operations are not equally atomic.  For nextQuestion the failure
leaves everything except the transitional `mode := route` unchanged —
history intact — and retrying from the failed state is identical to
retrying from the pre-call state.  For processUserAnswer the failed state
keeps the stored answer and `mode := feedback`, and its history is either
the pre-call history or the pre-call history already extended with the
completed turn record: the feedback node's in-place append survives in the
caller's shared history list when the hidden follow-up ask raises, so a
retry is only guaranteed to equal a fresh run when the history was in fact
unchanged.  (An empty generation result is not an error: it completes the
transition with empty text.) -/
theorem c3_failure_atomicity (panel : List PanelEntry) (llm : LLMFun)
    (s : InterviewState) (ans : String) (e : InvokeErr) :
    ((next_question panel llm s).1 = Except.error e →
      (next_question panel llm s).2 = { s with mode := Mode.route } ∧
      (next_question panel llm s).2.history = s.history ∧
      (next_question panel llm s).2.turn_index = s.turn_index ∧
      (next_question panel llm s).2.last_question = s.last_question ∧
      ∀ llm2 : LLMFun, next_question panel llm2 ((next_question panel llm s).2) =
        next_question panel llm2 s) ∧
    ((process_user_answer panel llm ans s).1 = Except.error e →
      (process_user_answer panel llm ans s).2.turn_index = s.turn_index ∧
      (process_user_answer panel llm ans s).2.user_answer = some ans ∧
      (process_user_answer panel llm ans s).2.mode = Mode.feedback ∧
      (process_user_answer panel llm ans s).2.last_question = s.last_question ∧
      ((process_user_answer panel llm ans s).2.history = s.history ∨
        ∃ fb : String, (process_user_answer panel llm ans s).2.history =
          s.history ++
            [{ agent := s.current_agent.getD "Expert",
               question := s.last_question.getD "",
               user_answer := ans,
               feedback := fb.trim }]) ∧
      ((process_user_answer panel llm ans s).2.history = s.history →
        ∀ llm2 : LLMFun,
          process_user_answer panel llm2 ans ((process_user_answer panel llm ans s).2) =
            process_user_answer panel llm2 ans s)) := by
  constructor
  · intro h
    have hp := next_question_err panel llm s e h
    refine ⟨hp, by rw [hp], by rw [hp], by rw [hp], fun llm2 => ?_⟩
    rw [hp]
    rfl
  · intro h
    obtain ⟨hi, hpost, hdis⟩ := process_err panel llm ans s e h
    rw [hpost]
    refine ⟨rfl, rfl, rfl, rfl, ?_, ?_⟩
    · exact hdis
    · intro hh llm2
      have hh2 : hi = s.history := hh
      rw [hh2]
      rfl

/-- C3 witness: a fully raising generation service makes nextQuestion fail
on the awaiting state with history untouched and an exact retry; and a
service that raises only on the hidden follow-up ask makes
processUserAnswer fail with turnIndex unchanged while the completed turn
record is already in the history. -/
theorem c3_witness :
    (next_question p3 llmNone sess1).1 = Except.error InvokeErr.genFailure ∧
      (next_question p3 llmNone sess1).2.history = sess1.history ∧
      next_question p3 llmConst ((next_question p3 llmNone sess1).2) =
        next_question p3 llmConst sess1 ∧
      (process_user_answer p3 llmAskFail "a" sCraft).1 =
        Except.error InvokeErr.genFailure ∧
      (process_user_answer p3 llmAskFail "a" sCraft).2.turn_index =
        sCraft.turn_index ∧
      (process_user_answer p3 llmAskFail "a" sCraft).2.mode = Mode.feedback :=
  ⟨by decide,
    ((c3_failure_atomicity p3 llmNone sess1 "a" InvokeErr.genFailure).1 (by decide)).2.1,
    ((c3_failure_atomicity p3 llmNone sess1 "a" InvokeErr.genFailure).1 (by decide)).2.2.2.2
      llmConst,
    by decide,
    ((c3_failure_atomicity p3 llmAskFail sCraft "a" InvokeErr.genFailure).2 (by decide)).1,
    ((c3_failure_atomicity p3 llmAskFail sCraft "a" InvokeErr.genFailure).2 (by decide)).2.2.1⟩

/-- C10: nextQuestion validates nothing about the current mode: it behaves
identically whatever the pre-state's mode is (the mode is overwritten with
`route` first); when the session is not stopping it regenerates a fresh
question for the same turnIndex — discarding any pending lastQuestion — and
halts at `await_answer`; when the session is stopping (done) it returns the
previously stored lastQuestion, the unchanged currentAgent and done = true
without any generation. -/
theorem c10_next_question_modes (panel : List PanelEntry) (llm : LLMFun)
    (s : InterviewState) (q : String) :
    (∀ m : Mode, next_question panel llm { s with mode := m } =
      next_question panel llm s) ∧
    (stopCond s = true →
      next_question panel llm s =
        (Except.ok (s.last_question.getD "", s.current_agent.getD "Expert", true),
         { s with mode := Mode.done })) ∧
    (stopCond s = false →
      curFalsy (routeSelect panel { s with mode := Mode.route }) = false →
      llm (systemPromptAt panel
          (smeIdx panel (routeSelect panel { s with mode := Mode.route })))
        (smeAskUser (routeSelect panel { s with mode := Mode.route })) = some q →
      next_question panel llm s =
        (Except.ok (q.trim, panelName panel (s.turn_index % panel.length), false),
         askApply (routeSelect panel { s with mode := Mode.route }) q) ∧
      (next_question panel llm s).2.turn_index = s.turn_index ∧
      (next_question panel llm s).2.mode = Mode.await_answer ∧
      (next_question panel llm s).2.last_question = some q.trim) := by
  refine ⟨fun m => rfl, fun hs => next_question_stop panel llm s hs,
    fun hs hcf hq => ?_⟩
  have h := next_question_go_ok panel llm s q hs hcf hq
  refine ⟨h, ?_, ?_, ?_⟩ <;> rw [h]
  · simp [askApply, routeSelect]
  · simp [askApply]
  · simp [askApply]

/-- C10 witness: called while the session is awaiting an answer, nextQuestion
succeeds, keeps the same turnIndex and ends awaiting again with a fresh
stored question. -/
theorem c10_witness :
    stopCond sess2 = false ∧ sess2.mode = Mode.await_answer ∧
      (next_question p3 llmConst sess2).2.turn_index = sess2.turn_index ∧
      (next_question p3 llmConst sess2).2.mode = Mode.await_answer :=
  ⟨rfl, rfl,
    ((c10_next_question_modes p3 llmConst sess2 "generated text").2.2 rfl
      (by decide) rfl).2.1,
    ((c10_next_question_modes p3 llmConst sess2 "generated text").2.2 rfl
      (by decide) rfl).2.2.1⟩

/-- C7: when routing terminates the session, streaming makes no generation
call (the outcome is independent of both generation services) and emits no
events, returning done; otherwise it emits exactly one start event carrying
the resolved agent, then one chunk event per fragment in order, then one end
event, and stores the trimmed concatenation of the fragments as lastQuestion
with mode await_answer. -/
theorem c7_streaming (panel : List PanelEntry) (llm : LLMFun) (sllm : StreamFun)
    (s : InterviewState) (q : String) :
    (stopCond s = true →
      stream_next_question panel llm sllm s =
        (Except.ok ("", "", true), { s with mode := Mode.done }, []) ∧
      ∀ (llm2 : LLMFun) (sllm2 : StreamFun),
        stream_next_question panel llm2 sllm2 s =
          stream_next_question panel llm sllm s) ∧
    (stopCond s = false →
      curFalsy (routeSelect panel { s with mode := Mode.route }) = false →
      llm (systemPromptAt panel
          (smeIdx panel (routeSelect panel { s with mode := Mode.route })))
        (smeAskUser (routeSelect panel { s with mode := Mode.route })) = some q →
      (let t := askApply (routeSelect panel { s with mode := Mode.route }) q
       let nm := panelName panel (s.turn_index % panel.length)
       let frags := sllm (systemPromptAt panel
           ((panel.findIdx? (fun p => p.name == nm)).getD 0))
         (compose_context t ++ "\n\n" ++ askInstr)
       stream_next_question panel llm sllm s =
         (Except.ok ((String.join frags).trim, nm, false),
          { t with last_question := some (String.join frags).trim,
                   mode := Mode.await_answer },
          Event.qstart nm :: (frags.map Event.qchunk ++ [Event.qend nm])))) := by
  constructor
  · intro hs
    refine ⟨stream_stop panel llm sllm s hs, fun llm2 sllm2 => ?_⟩
    rw [stream_stop panel llm sllm s hs, stream_stop panel llm2 sllm2 s hs]
  · intro hs hcf hq
    simp only [stream_next_question]
    rw [appInvoke_route_ok panel llm { s with mode := Mode.route } q rfl hs hcf hq]
    dsimp only
    rw [if_neg (by simp [askApply])]
    rfl

/-- C7 witness: on a force-stopped fresh session, streaming emits nothing
and reports done; on the fresh session itself it emits exactly
start/chunk/chunk/chunk/end for the three fragments and awaits an answer. -/
theorem c7_witness :
    stopCond (stop sess0) = true ∧
    stream_next_question p3 llmConst sllmConst (stop sess0) =
      (Except.ok ("", "", true), { stop sess0 with mode := Mode.done }, []) ∧
    stopCond sess0 = false ∧
    (let t := askApply (routeSelect p3 { sess0 with mode := Mode.route })
      "generated text"
     let nm := panelName p3 (sess0.turn_index % p3.length)
     let frags := sllmConst (systemPromptAt p3
         ((p3.findIdx? (fun p => p.name == nm)).getD 0))
       (compose_context t ++ "\n\n" ++ askInstr)
     stream_next_question p3 llmConst sllmConst sess0 =
       (Except.ok ((String.join frags).trim, nm, false),
        { t with last_question := some (String.join frags).trim,
                 mode := Mode.await_answer },
        Event.qstart nm :: (frags.map Event.qchunk ++ [Event.qend nm]))) :=
  ⟨by decide,
   ((c7_streaming p3 llmConst sllmConst (stop sess0) "generated text").1
     (by decide)).1,
   by decide,
   (c7_streaming p3 llmConst sllmConst sess0 "generated text").2 (by decide)
     (by decide) rfl⟩

/-- C6 counterexample: in the concrete maxTurns = 2 scenario with a panel of
3 entries and an always-succeeding generation service, the first
submitAnswer leaves `currentAgent` equal to panel entry 0's name, not panel
entry 1's: the internal re-routing runs before turnIndex is incremented. -/
theorem c6_counterexample :
    (next_question p3 llmConst sess0).1 =
      Except.ok ("generated text".trim, panelName p3 0, false) ∧
    (process_user_answer p3 llmConst "answer A" sess1).1 = Except.ok false ∧
    sess2.turn_index = 1 ∧ sess2.history.length = 1 ∧
    sess2.current_agent = some (panelName p3 0) ∧
    sess2.current_agent ≠ some (panelName p3 1) := by
  refine ⟨rfl, by decide, by decide, by decide, by decide, by decide⟩

/-- C6 (amended): end-to-end scenario with a 3-entry panel, `maxTurns = 2`
and a generation service that always succeeds: the first nextQuestion asks
as entry 0 (Alpha) and awaits; the first submitAnswer returns done = false
with history length 1 and turnIndex 1, but leaves currentAgent equal to
panel entry 0's name (re-routing happens before the increment); the second
nextQuestion asks as entry 1 (Beta); the second submitAnswer returns
done = true with history length 2. -/
theorem c6_scenario (llm : LLMFun) (rn ansA ansB : String)
    (hllm : ∀ a b : String, llm a b ≠ none) :
    (∃ q, (next_question p3 llm (init_state p3 rn 2)).1 =
      Except.ok (q, "Alpha", false)) ∧
    (next_question p3 llm (init_state p3 rn 2)).2.mode = Mode.await_answer ∧
    (process_user_answer p3 llm ansA
      (next_question p3 llm (init_state p3 rn 2)).2).1 = Except.ok false ∧
    (process_user_answer p3 llm ansA
      (next_question p3 llm (init_state p3 rn 2)).2).2.history.length = 1 ∧
    (process_user_answer p3 llm ansA
      (next_question p3 llm (init_state p3 rn 2)).2).2.turn_index = 1 ∧
    (process_user_answer p3 llm ansA
      (next_question p3 llm (init_state p3 rn 2)).2).2.current_agent = some "Alpha" ∧
    (∃ q, (next_question p3 llm (process_user_answer p3 llm ansA
      (next_question p3 llm (init_state p3 rn 2)).2).2).1 =
        Except.ok (q, "Beta", false)) ∧
    (process_user_answer p3 llm ansB (next_question p3 llm
      (process_user_answer p3 llm ansA
        (next_question p3 llm (init_state p3 rn 2)).2).2).2).1 = Except.ok true ∧
    (process_user_answer p3 llm ansB (next_question p3 llm
      (process_user_answer p3 llm ansA
        (next_question p3 llm (init_state p3 rn 2)).2).2).2).2.history.length = 2 := by
  have hsome : ∀ a b : String, ∃ t, llm a b = some t := by
    intro a b
    cases h : llm a b
    · exact absurd h (hllm a b)
    · exact ⟨_, rfl⟩
  -- Turn 1, ask: entry 0 (Alpha)
  obtain ⟨q1, hq1⟩ := hsome
    (systemPromptAt p3 (smeIdx p3
      (routeSelect p3 { (init_state p3 rn 2) with mode := Mode.route })))
    (smeAskUser (routeSelect p3 { (init_state p3 rn 2) with mode := Mode.route }))
  have H1 : next_question p3 llm (init_state p3 rn 2) =
      (Except.ok (q1.trim, "Alpha", false),
       (⟨p3, rn, [], 0, 2, some "Alpha", Mode.await_answer, some q1.trim,
         none, none, false⟩ : InterviewState)) :=
    (next_question_go_ok p3 llm (init_state p3 rn 2) q1 rfl rfl hq1).trans rfl
  rw [H1]
  dsimp only
  refine ⟨⟨q1.trim, rfl⟩, rfl, ?_⟩
  -- Turn 1, feedback then hidden re-ask (still Alpha)
  obtain ⟨fb1, hfb1⟩ := hsome
    (systemPromptAt p3 (smeIdx p3
      (⟨p3, rn, [], 0, 2, some "Alpha", Mode.feedback, some q1.trim,
        none, some ansA, false⟩ : InterviewState)))
    (smeFeedbackUser (⟨p3, rn, [], 0, 2, some "Alpha", Mode.feedback,
      some q1.trim, none, some ansA, false⟩ : InterviewState))
  obtain ⟨q2, hq2⟩ := hsome
    (systemPromptAt p3 (smeIdx p3 (routeSelect p3
      (⟨p3, rn, [⟨"Alpha", q1.trim, ansA, fb1.trim⟩], 0, 2, some "Alpha", Mode.route, some q1.trim,
        some fb1.trim, some ansA, false⟩ : InterviewState))))
    (smeAskUser (routeSelect p3
      (⟨p3, rn, [⟨"Alpha", q1.trim, ansA, fb1.trim⟩], 0, 2, some "Alpha", Mode.route, some q1.trim,
        some fb1.trim, some ansA, false⟩ : InterviewState)))
  have H2 : process_user_answer p3 llm ansA
      (⟨p3, rn, [], 0, 2, some "Alpha", Mode.await_answer, some q1.trim,
        none, none, false⟩ : InterviewState) =
      (Except.ok false,
       (⟨p3, rn, [⟨"Alpha", q1.trim, ansA, fb1.trim⟩], 1, 2, some "Alpha", Mode.await_answer,
         some q2.trim, some fb1.trim, some ansA, false⟩ : InterviewState)) := by
    simp only [process_user_answer]
    rw [show ({ (⟨p3, rn, [], 0, 2, some "Alpha", Mode.await_answer,
        some q1.trim, none, none, false⟩ : InterviewState) with
        user_answer := some ansA, mode := Mode.feedback } : InterviewState) =
      (⟨p3, rn, [], 0, 2, some "Alpha", Mode.feedback, some q1.trim, none,
        some ansA, false⟩ : InterviewState) from rfl]
    rw [appInvoke_feedback_ok p3 llm
      (⟨p3, rn, [], 0, 2, some "Alpha", Mode.feedback, some q1.trim, none,
        some ansA, false⟩ : InterviewState) fb1 rfl rfl rfl hfb1]
    rw [show feedbackApply
      (⟨p3, rn, [], 0, 2, some "Alpha", Mode.feedback, some q1.trim, none,
        some ansA, false⟩ : InterviewState) fb1 =
      (⟨p3, rn, [⟨"Alpha", q1.trim, ansA, fb1.trim⟩], 0, 2, some "Alpha", Mode.route, some q1.trim,
        some fb1.trim, some ansA, false⟩ : InterviewState) from rfl]
    rw [rfr3_route_ok p3 llm
      (⟨p3, rn, [⟨"Alpha", q1.trim, ansA, fb1.trim⟩], 0, 2, some "Alpha", Mode.route, some q1.trim,
        some fb1.trim, some ansA, false⟩ : InterviewState) q2 rfl rfl rfl hq2]
    rw [show askApply (routeSelect p3
      (⟨p3, rn, [⟨"Alpha", q1.trim, ansA, fb1.trim⟩], 0, 2, some "Alpha", Mode.route, some q1.trim,
        some fb1.trim, some ansA, false⟩ : InterviewState)) q2 =
      (⟨p3, rn, [⟨"Alpha", q1.trim, ansA, fb1.trim⟩], 0, 2, some "Alpha", Mode.await_answer,
        some q2.trim, some fb1.trim, some ansA, false⟩ : InterviewState) from rfl]
    dsimp only
    rw [show ({ (⟨p3, rn, [⟨"Alpha", q1.trim, ansA, fb1.trim⟩], 0, 2, some "Alpha",
        Mode.await_answer, some q2.trim, some fb1.trim, some ansA, false⟩ :
          InterviewState) with
        turn_index := (⟨p3, rn, [⟨"Alpha", q1.trim, ansA, fb1.trim⟩], 0, 2, some "Alpha",
        Mode.await_answer, some q2.trim, some fb1.trim, some ansA, false⟩ :
          InterviewState).turn_index + 1 } : InterviewState) =
      (⟨p3, rn, [⟨"Alpha", q1.trim, ansA, fb1.trim⟩], 1, 2, some "Alpha", Mode.await_answer,
        some q2.trim, some fb1.trim, some ansA, false⟩ : InterviewState) from rfl]
    rw [appInvoke_of_quiet p3 llm
      (⟨p3, rn, [⟨"Alpha", q1.trim, ansA, fb1.trim⟩], 1, 2, some "Alpha", Mode.await_answer,
        some q2.trim, some fb1.trim, some ansA, false⟩ : InterviewState)
      ⟨by simp, Or.inr (Or.inl rfl)⟩]
    rw [if_neg (by simp [stopCond])]
    rfl
  rw [H2]
  dsimp only
  refine ⟨rfl, rfl, rfl, rfl, ?_⟩
  -- Turn 2, ask: entry 1 (Beta)
  obtain ⟨q3, hq3⟩ := hsome
    (systemPromptAt p3 (smeIdx p3 (routeSelect p3
      ({ (⟨p3, rn, [⟨"Alpha", q1.trim, ansA, fb1.trim⟩], 1, 2, some "Alpha", Mode.await_answer,
         some q2.trim, some fb1.trim, some ansA, false⟩ : InterviewState) with
        mode := Mode.route } : InterviewState))))
    (smeAskUser (routeSelect p3
      ({ (⟨p3, rn, [⟨"Alpha", q1.trim, ansA, fb1.trim⟩], 1, 2, some "Alpha", Mode.await_answer,
         some q2.trim, some fb1.trim, some ansA, false⟩ : InterviewState) with
        mode := Mode.route } : InterviewState)))
  have H3 : next_question p3 llm
      (⟨p3, rn, [⟨"Alpha", q1.trim, ansA, fb1.trim⟩], 1, 2, some "Alpha", Mode.await_answer,
        some q2.trim, some fb1.trim, some ansA, false⟩ : InterviewState) =
      (Except.ok (q3.trim, "Beta", false),
       (⟨p3, rn, [⟨"Alpha", q1.trim, ansA, fb1.trim⟩], 1, 2, some "Beta", Mode.await_answer,
         some q3.trim, some fb1.trim, some ansA, false⟩ : InterviewState)) :=
    (next_question_go_ok p3 llm
      (⟨p3, rn, [⟨"Alpha", q1.trim, ansA, fb1.trim⟩], 1, 2, some "Alpha",
        Mode.await_answer, some q2.trim, some fb1.trim, some ansA, false⟩ :
          InterviewState) q3 rfl rfl hq3).trans rfl
  rw [H3]
  dsimp only
  refine ⟨⟨q3.trim, rfl⟩, ?_⟩
  -- Turn 2, feedback then hidden re-ask, then termination at turnIndex 2
  obtain ⟨fb2, hfb2⟩ := hsome
    (systemPromptAt p3 (smeIdx p3
      (⟨p3, rn, [⟨"Alpha", q1.trim, ansA, fb1.trim⟩], 1, 2, some "Beta", Mode.feedback,
        some q3.trim, some fb1.trim, some ansB, false⟩ : InterviewState)))
    (smeFeedbackUser
      (⟨p3, rn, [⟨"Alpha", q1.trim, ansA, fb1.trim⟩], 1, 2, some "Beta", Mode.feedback,
        some q3.trim, some fb1.trim, some ansB, false⟩ : InterviewState))
  obtain ⟨q4, hq4⟩ := hsome
    (systemPromptAt p3 (smeIdx p3 (routeSelect p3
      (⟨p3, rn, [⟨"Alpha", q1.trim, ansA, fb1.trim⟩,
                        ⟨"Beta", q3.trim, ansB, fb2.trim⟩], 1, 2, some "Beta", Mode.route, some q3.trim,
        some fb2.trim, some ansB, false⟩ : InterviewState))))
    (smeAskUser (routeSelect p3
      (⟨p3, rn, [⟨"Alpha", q1.trim, ansA, fb1.trim⟩,
                        ⟨"Beta", q3.trim, ansB, fb2.trim⟩], 1, 2, some "Beta", Mode.route, some q3.trim,
        some fb2.trim, some ansB, false⟩ : InterviewState)))
  have H4 : process_user_answer p3 llm ansB
      (⟨p3, rn, [⟨"Alpha", q1.trim, ansA, fb1.trim⟩], 1, 2, some "Beta", Mode.await_answer,
        some q3.trim, some fb1.trim, some ansA, false⟩ : InterviewState) =
      (Except.ok true,
       (⟨p3, rn, [⟨"Alpha", q1.trim, ansA, fb1.trim⟩,
                         ⟨"Beta", q3.trim, ansB, fb2.trim⟩], 2, 2, some "Beta", Mode.done, some q4.trim,
         some fb2.trim, some ansB, false⟩ : InterviewState)) := by
    simp only [process_user_answer]
    rw [show ({ (⟨p3, rn, [⟨"Alpha", q1.trim, ansA, fb1.trim⟩], 1, 2, some "Beta",
        Mode.await_answer, some q3.trim, some fb1.trim, some ansA, false⟩ :
          InterviewState) with
        user_answer := some ansB, mode := Mode.feedback } : InterviewState) =
      (⟨p3, rn, [⟨"Alpha", q1.trim, ansA, fb1.trim⟩], 1, 2, some "Beta", Mode.feedback,
        some q3.trim, some fb1.trim, some ansB, false⟩ : InterviewState) from rfl]
    rw [appInvoke_feedback_ok p3 llm
      (⟨p3, rn, [⟨"Alpha", q1.trim, ansA, fb1.trim⟩], 1, 2, some "Beta", Mode.feedback,
        some q3.trim, some fb1.trim, some ansB, false⟩ : InterviewState)
      fb2 rfl rfl rfl hfb2]
    rw [show feedbackApply
      (⟨p3, rn, [⟨"Alpha", q1.trim, ansA, fb1.trim⟩], 1, 2, some "Beta", Mode.feedback,
        some q3.trim, some fb1.trim, some ansB, false⟩ : InterviewState) fb2 =
      (⟨p3, rn, [⟨"Alpha", q1.trim, ansA, fb1.trim⟩,
                        ⟨"Beta", q3.trim, ansB, fb2.trim⟩], 1, 2, some "Beta", Mode.route, some q3.trim,
        some fb2.trim, some ansB, false⟩ : InterviewState) from rfl]
    rw [rfr3_route_ok p3 llm
      (⟨p3, rn, [⟨"Alpha", q1.trim, ansA, fb1.trim⟩,
                        ⟨"Beta", q3.trim, ansB, fb2.trim⟩], 1, 2, some "Beta", Mode.route, some q3.trim,
        some fb2.trim, some ansB, false⟩ : InterviewState) q4 rfl rfl rfl hq4]
    rw [show askApply (routeSelect p3
      (⟨p3, rn, [⟨"Alpha", q1.trim, ansA, fb1.trim⟩,
                        ⟨"Beta", q3.trim, ansB, fb2.trim⟩], 1, 2, some "Beta", Mode.route, some q3.trim,
        some fb2.trim, some ansB, false⟩ : InterviewState)) q4 =
      (⟨p3, rn, [⟨"Alpha", q1.trim, ansA, fb1.trim⟩,
                        ⟨"Beta", q3.trim, ansB, fb2.trim⟩], 1, 2, some "Beta", Mode.await_answer,
        some q4.trim, some fb2.trim, some ansB, false⟩ : InterviewState) from rfl]
    dsimp only
    rw [show ({ (⟨p3, rn, [⟨"Alpha", q1.trim, ansA, fb1.trim⟩,
                        ⟨"Beta", q3.trim, ansB, fb2.trim⟩], 1, 2, some "Beta", Mode.await_answer,
        some q4.trim, some fb2.trim, some ansB, false⟩ : InterviewState) with
        turn_index := (⟨p3, rn, [⟨"Alpha", q1.trim, ansA, fb1.trim⟩,
                        ⟨"Beta", q3.trim, ansB, fb2.trim⟩], 1, 2, some "Beta", Mode.await_answer,
        some q4.trim, some fb2.trim, some ansB, false⟩ :
          InterviewState).turn_index + 1 } : InterviewState) =
      (⟨p3, rn, [⟨"Alpha", q1.trim, ansA, fb1.trim⟩,
                        ⟨"Beta", q3.trim, ansB, fb2.trim⟩], 2, 2, some "Beta", Mode.await_answer,
        some q4.trim, some fb2.trim, some ansB, false⟩ : InterviewState) from rfl]
    rw [appInvoke_of_quiet p3 llm
      (⟨p3, rn, [⟨"Alpha", q1.trim, ansA, fb1.trim⟩,
                        ⟨"Beta", q3.trim, ansB, fb2.trim⟩], 2, 2, some "Beta", Mode.await_answer,
        some q4.trim, some fb2.trim, some ansB, false⟩ : InterviewState)
      ⟨by simp, Or.inr (Or.inl rfl)⟩]
    rw [if_pos (by simp [stopCond])]
    rfl
  rw [H4]
  exact ⟨rfl, rfl⟩

/-- C6 witness: the scenario instantiated with a concrete always-succeeding
generation service: after the first answer the agent is still Alpha, and the
second answer finishes the session. -/
theorem c6_witness :
    (∀ a b : String, llmConst a b ≠ none) ∧
    (process_user_answer p3 llmConst "answer A"
      (next_question p3 llmConst (init_state p3 "" 2)).2).2.current_agent =
        some "Alpha" ∧
    (process_user_answer p3 llmConst "answer B" (next_question p3 llmConst
      (process_user_answer p3 llmConst "answer A"
        (next_question p3 llmConst (init_state p3 "" 2)).2).2).2).1 =
      Except.ok true :=
  ⟨fun _ _ h => Option.noConfusion h,
   (c6_scenario llmConst "" "answer A" "answer B"
     (fun _ _ h => Option.noConfusion h)).2.2.2.2.2.1,
   (c6_scenario llmConst "" "answer A" "answer B"
     (fun _ _ h => Option.noConfusion h)).2.2.2.2.2.2.2.1⟩
